import Mathlib

set_option maxRecDepth 10000

/-!
Verification development for the SPYNNERS backend recognition pipeline
(src/backend/server.py).  The Python source is shallowly embedded:

* `normalize_title`, `similarity_score` model the helpers defined inside
  `recognize_audio` (server.py lines 464-477); `similarity_score` is a
  faithful model of Python `difflib.SequenceMatcher(None, a, b).ratio()`
  (dynamic-programming longest-match search, autojunk for `len(b) >= 200`,
  the two non-junk extension loops; the junk extension loops are dead code
  here because no `isjunk` predicate is supplied, so `bjunk` is empty).
  Ratios are computed exactly in `Rat`.
* the fuzzy-scoring loop (lines 515-580), the `recognize_audio`
  orchestration (lines 198-682), the identify-time conversion cleanup
  (lines 249-307), the `convert_audio` endpoint cleanup (lines 701-784)
  and `process_offline_session` (lines 2056-2332) are embedded as pure
  functions; network and filesystem effects appear as explicit inputs
  (what each external call returned) and outputs (instrumentation
  counters, remaining temp files).

Strings are modelled over their character lists; the Python `\w`/`\s`
character classes and `str.lower()` are modelled on their ASCII fragment
(every concrete input used below is ASCII).

Python float arithmetic is modelled as exact arithmetic in `Rat`.  The
score weights (0.3, 0.2, 0.15, thresholds 0.45 and 0.5) are exact
decimals in the source text, and the claims under scrutiny reason about
them as exact values ("a pair scoring exactly 0.45"), which is only
meaningful in this idealization — no IEEE double equals 0.45, and
`0.15 + 0.3 < 0.45` under doubles.  All threshold and ordering
statements below are therefore statements about the exact-arithmetic
reading of the code.
-/

/-! ## Character classes and elementary string helpers -/

/-- Python `\s` (ASCII fragment): space, tab, newline, carriage return,
vertical tab, form feed. -/
def isSpaceChar (c : Char) : Bool :=
  c = ' ' || c = '\t' || c = '\n' || c = '\r' || c = '\x0b' || c = '\x0c'

/-- Python `\w` (ASCII fragment): alphanumeric or underscore. -/
def isWordChar (c : Char) : Bool :=
  c.isAlphanum || c = '_'

/-- Python `str.lower()` (ASCII fragment). -/
def lowerStr (s : String) : String :=
  ⟨s.data.map Char.toLower⟩

/-- Split a list at the first character satisfying `p`: returns the part
before it and the part after it (the matching character removed). -/
def breakAt (p : Char → Bool) : List Char → Option (List Char × List Char)
  | [] => none
  | c :: cs =>
    if p c then some ([], cs)
    else (breakAt p cs).map (fun q => (c :: q.1, q.2))

/-- Remove the trailing whitespace run. -/
def dropTrailingWS (cs : List Char) : List Char :=
  (cs.reverse.dropWhile isSpaceChar).reverse

/-- One pass of Python `re.sub(r'\s*\([^)]*\)\s*', ' ', s)`.
A match is: the whitespace run immediately before the first `'('` that is
followed (anywhere) by a `')'`, the group up to the first `')'`, and the
whitespace run after it; each match is replaced by a single space and
scanning resumes after the match (the replacement is not rescanned).
`fuel` only bounds the recursion; every step consumes at least the two
bracket characters, so the initial fuel `cs.length` is never exhausted. -/
def subParensAux : Nat → List Char → List Char
  | 0, cs => cs
  | fuel + 1, cs =>
    match breakAt (fun c => c = '(') cs with
    | none => cs
    | some (pre, rest) =>
      match breakAt (fun c => c = ')') rest with
      | none => cs
      | some (_, post) =>
        dropTrailingWS pre ++ ' ' :: subParensAux fuel (post.dropWhile isSpaceChar)

def subParens (cs : List Char) : List Char :=
  subParensAux cs.length cs

/-- Python `re.sub(r'[^\w\s]', ' ', s)`. -/
def sweepSpecials (cs : List Char) : List Char :=
  cs.map (fun c => if isWordChar c || isSpaceChar c then c else ' ')

/-- Maximal non-whitespace runs, in order (Python `str.split()`),
accumulator style. -/
def wordsAux : List Char → List Char → List (List Char)
  | [], cur => if cur = [] then [] else [cur.reverse]
  | c :: cs, cur =>
    if isSpaceChar c then
      if cur = [] then wordsAux cs [] else cur.reverse :: wordsAux cs []
    else wordsAux cs (c :: cur)

def wordsOf (cs : List Char) : List (List Char) :=
  wordsAux cs []

/-- Python `' '.join(s.split())`. -/
def collapseWS (cs : List Char) : List Char :=
  List.intercalate [' '] (wordsOf cs)

/-- Python `str.strip()` (ASCII whitespace). -/
def stripWS (cs : List Char) : List Char :=
  ((cs.dropWhile isSpaceChar).reverse.dropWhile isSpaceChar).reverse

/-- `normalize_title` from server.py lines 464-473: empty-falsy guard,
strip parenthetical groups, strip non-alphanumeric/non-space characters,
collapse whitespace, lowercase, strip. -/
def normalize_title (s : String) : String :=
  if s = "" then ""
  else ⟨stripWS ((collapseWS (sweepSpecials (subParens s.data))).map Char.toLower)⟩

/-! ## Substring test (Python `in` on strings) and word sets -/

def isPrefixOfL : List Char → List Char → Bool
  | [], _ => true
  | _ :: _, [] => false
  | c :: cs, d :: ds => c = d && isPrefixOfL cs ds

def isInfixOfL (needle : List Char) : List Char → Bool
  | [] => needle.isEmpty
  | d :: ds => isPrefixOfL needle (d :: ds) || isInfixOfL needle ds

/-- Python `needle in hay` for strings (contiguous substring). -/
def inStr (needle hay : String) : Bool :=
  isInfixOfL needle.data hay.data

/-- Python `s.split()` as a list of strings. -/
def splitWords (s : String) : List String :=
  (wordsOf s.data).map (fun l => ⟨l⟩)

/-- Python `set(s.split())`, as the duplicate-free list of words keeping
first occurrences. -/
def wordSet (s : String) : List String :=
  (splitWords s).dedup

/-! ## difflib.SequenceMatcher ratio (over character lists, exact rationals)

Model of `SequenceMatcher(None, a, b).ratio()` from the Python standard
library: `b2j` maps each character to its (ascending) positions in `b`,
dropping "popular" characters when `len(b) >= 200` (autojunk);
`find_longest_match` runs the row dynamic programming and then the two
extension loops over non-junk characters (`bjunk` is empty because no junk
predicate is supplied, so the final two junk-extension loops of the Python
source never execute and are omitted); `get_matching_blocks` recurses on
both sides of each longest match; the ratio is `2*M/(len(a)+len(b))`
(and `1` when both are empty). -/

/-- Ascending positions of `c` in `b`. -/
def positionsOf (b : List Char) (c : Char) : List Nat :=
  (List.range b.length).filter (fun j => b.get? j = some c)

/-- Autojunk: with `len(b) >= 200`, characters occurring more than
`len(b) / 100 + 1` times are dropped from `b2j`. -/
def bPopular (b : List Char) (c : Char) : Bool :=
  b.length ≥ 200 && b.count c > b.length / 100 + 1

def b2jList (b : List Char) (c : Char) : List Nat :=
  if bPopular b c then [] else positionsOf b c

/-- Inner loop of `find_longest_match` for one row `i`: walk the ascending
positions `js` of `a[i]` in `b`, skipping `j < blo`, stopping at
`j >= bhi`; `j2len` is the previous row (`0` for absent keys), `acc` the
row being built, `best` the running `(besti, bestj, bestsize)` updated on
strictly larger `k`. -/
def flmInner (j2len : Nat → Nat) (i blo bhi : Nat) :
    List Nat → (Nat → Nat) → Nat × Nat × Nat → (Nat → Nat) × (Nat × Nat × Nat)
  | [], acc, best => (acc, best)
  | j :: js, acc, best =>
    if j < blo then flmInner j2len i blo bhi js acc best
    else if bhi ≤ j then (acc, best)
    else
      let k := (if j = 0 then 0 else j2len (j - 1)) + 1
      let acc2 := fun x => if x = j then k else acc x
      let best2 := if best.2.2 < k then (i + 1 - k, j + 1 - k, k) else best
      flmInner j2len i blo bhi js acc2 best2

/-- Outer loop of `find_longest_match` over the rows `i ∈ [alo, ahi)`. -/
def flmOuter (a b : List Char) (blo bhi : Nat) :
    List Nat → (Nat → Nat) → Nat × Nat × Nat → Nat × Nat × Nat
  | [], _, best => best
  | i :: is, j2len, best =>
    let p := flmInner j2len i blo bhi (b2jList b (a.getD i ' ')) (fun _ => 0) best
    flmOuter a b blo bhi is p.1 p.2

/-- `a[i] == b[j]`, false when either index is out of range (the Python
loops only compare in-range indices). -/
def charEqAt (a b : List Char) (i j : Nat) : Bool :=
  match a.get? i, b.get? j with
  | some x, some y => x == y
  | _, _ => false

/-- First extension loop: grow the block to the left over equal
characters (`bjunk` is empty, so the junk test is vacuous).  Structural
on `besti`, which decreases by exactly one per step. -/
def extendLeft (a b : List Char) (alo blo : Nat) : Nat → Nat → Nat → Nat × Nat × Nat
  | 0, bestj, bestsize => (0, bestj, bestsize)
  | besti + 1, bestj, bestsize =>
    if alo ≤ besti ∧ blo < bestj ∧ charEqAt a b besti (bestj - 1) then
      extendLeft a b alo blo besti (bestj - 1) (bestsize + 1)
    else (besti + 1, bestj, bestsize)

/-- Second extension loop: grow the block to the right over equal
characters.  `fuel` bounds the iteration count; each step forces
`besti + bestsize < ahi`, so `fuel = ahi` always suffices. -/
def extendRight (a b : List Char) (ahi bhi besti bestj : Nat) : Nat → Nat → Nat
  | 0, bestsize => bestsize
  | fuel + 1, bestsize =>
    if besti + bestsize < ahi ∧ bestj + bestsize < bhi ∧
        charEqAt a b (besti + bestsize) (bestj + bestsize) then
      extendRight a b ahi bhi besti bestj fuel (bestsize + 1)
    else bestsize

/-- `find_longest_match(alo, ahi, blo, bhi)`. -/
def findLongestMatch (a b : List Char) (alo ahi blo bhi : Nat) : Nat × Nat × Nat :=
  let dp := flmOuter a b blo bhi (List.range' alo (ahi - alo)) (fun _ => 0) (alo, blo, 0)
  let l := extendLeft a b alo blo dp.1 dp.2.1 dp.2.2
  let k := extendRight a b ahi bhi l.1 l.2.1 ahi l.2.2
  (l.1, l.2.1, k)

/-- `get_matching_blocks` recursion (block list without the sentinel;
adjacent-block merging does not change the size sum, so it is omitted).
The Python code recurses exactly when `k > 0`; the returned match then
always lies inside the interval, so the extra bound tests in the guard
are always true in that case and only serve to make the strict decrease
of `(ahi - alo) + (bhi - blo)` syntactic.  `fuel` starts above that
measure and therefore never reaches zero with the guard true. -/
def matchingBlocksAux (a b : List Char) :
    Nat → Nat → Nat → Nat → Nat → List (Nat × Nat × Nat)
  | 0, _, _, _, _ => []
  | fuel + 1, alo, ahi, blo, bhi =>
    let m := findLongestMatch a b alo ahi blo bhi
    if 0 < m.2.2 ∧ alo ≤ m.1 ∧ m.1 + m.2.2 ≤ ahi ∧ blo ≤ m.2.1 ∧ m.2.1 + m.2.2 ≤ bhi then
      matchingBlocksAux a b fuel alo m.1 blo m.2.1 ++
        m :: matchingBlocksAux a b fuel (m.1 + m.2.2) ahi (m.2.1 + m.2.2) bhi
    else []

def matchingBlocks (a b : List Char) : List (Nat × Nat × Nat) :=
  matchingBlocksAux a b (a.length + b.length + 1) 0 a.length 0 b.length

/-- Total number of matched characters `M`. -/
def matchSum (a b : List Char) : Nat :=
  ((matchingBlocks a b).map (fun m => m.2.2)).foldl (· + ·) 0

/-- `SequenceMatcher(None, a, b).ratio()` as an exact rational. -/
def ratioQ (a b : List Char) : Rat :=
  if a.length + b.length = 0 then 1
  else (2 * matchSum a b : Rat) / ((a.length + b.length : Nat) : Rat)

/-- `similarity_score` from server.py lines 475-477. -/
def similarity_score (x y : String) : Rat :=
  ratioQ x.data y.data

/-! ## Catalog entries and the fuzzy scoring loop (server.py lines 500-580)

`SpTrack` models a track record returned by the platform ("Base44")
catalog API; every field is optional, mirroring `dict.get`.  Only the
fields the recognition pipeline reads are carried. -/

structure SpTrack where
  id : Option String := none
  title : Option String := none
  producer_name : Option String := none
  artistName : Option String := none
  acrcloud_id : Option String := none
  producer_id : Option String := none
  artwork_url : Option String := none
  genre : Option String := none
  album : Option String := none
  release_date : Option String := none
  label : Option String := none
  bpm : Option Nat := none
  energy_level : Option String := none
  mood : Option String := none
  isrc : Option String := none
deriving DecidableEq

/-- Python truthiness of an optional string: present and non-empty. -/
def truthy (o : Option String) : Bool :=
  o.getD "" ≠ ""

/-- `normalize_title(t.get("title") or "")` for a catalog entry. -/
def tTitleNorm (t : SpTrack) : String :=
  normalize_title (t.title.getD "")

/-- `normalize_title(t.get("producer_name") or "")` for a catalog entry. -/
def tProducerNorm (t : SpTrack) : String :=
  normalize_title (t.producer_name.getD "")

/-- `title_score` (line 526): sequence similarity of the normalized
candidate title `ct` and the entry's normalized title. -/
def titleScore (ct : String) (t : SpTrack) : Rat :=
  similarity_score ct (tTitleNorm t)

/-- `artist_bonus` (lines 529-536): starts at 0; only when both the
normalized candidate artist and the normalized producer name are
non-empty (Python truthiness guard), it becomes 0.2 on similarity above
0.5 and is then overridden to 0.3 when either string contains the
other. -/
def artistBonus (ca : String) (t : SpTrack) : Rat :=
  if ca ≠ "" ∧ tProducerNorm t ≠ "" then
    let fromSim : Rat := if 1 / 2 < similarity_score ca (tProducerNorm t) then 1 / 5 else 0
    if inStr ca (tProducerNorm t) || inStr (tProducerNorm t) ca then 3 / 10 else fromSim
  else 0

/-- `contains_bonus` (lines 539-541). -/
def containsBonus (ct : String) (t : SpTrack) : Rat :=
  if inStr ct (tTitleNorm t) || inStr (tTitleNorm t) ct then 1 / 5 else 0

/-- `word_bonus` (lines 544-550): word sets of the two normalized titles. -/
def wordBonus (ct : String) (t : SpTrack) : Rat :=
  let cw := wordSet ct
  let tw := wordSet (tTitleNorm t)
  let common := cw.filter (fun w => w ∈ tw)
  if 0 < common.length then
    ((common.length : Rat) / ((max cw.length tw.length : Nat) : Rat)) * (3 / 10)
  else 0

/-- `remix_bonus` (lines 553-559). -/
def remixBonus (ct : String) (t : SpTrack) : Rat :=
  if inStr "remix" ct || inStr "remix" (tTitleNorm t) then
    if (wordSet ct).any (fun w => 3 < w.length ∧ inStr w (tTitleNorm t)) then 3 / 20 else 0
  else 0

/-- `total_score` (line 561). -/
def totalScore (ct ca : String) (t : SpTrack) : Rat :=
  titleScore ct t + artistBonus ca t + containsBonus ct t + wordBonus ct t + remixBonus ct t

/-- Score after the exact-match override (lines 563-565): identical
normalized titles force `2.0`. -/
def entryScore (ct ca : String) (t : SpTrack) : Rat :=
  if tTitleNorm t = ct then 2 else totalScore ct ca t

/-- The scoring loop (lines 515-573): entries with a falsy title are
skipped; the best `(match, score)` pair starts at `(None, 0)` and is
replaced only on a strictly larger score. -/
def fuzzyFold (ct ca : String) : List SpTrack → Option SpTrack × Rat → Option SpTrack × Rat
  | [], acc => acc
  | t :: ts, acc =>
    if t.title.getD "" = "" then fuzzyFold ct ca ts acc
    else
      let s := entryScore ct ca t
      if acc.2 < s then fuzzyFold ct ca ts (some t, s) else fuzzyFold ct ca ts acc

def fuzzyBest (ct ca : String) (ts : List SpTrack) : Option SpTrack × Rat :=
  fuzzyFold ct ca ts (none, 0)

/-- Acceptance (lines 576-578): keep the best match only when one exists
and its score is at least 0.45. -/
def fuzzyMatch (ct ca : String) (ts : List SpTrack) : Option SpTrack :=
  match fuzzyBest ct ca ts with
  | (some t, s) => if 9 / 20 ≤ s then some t else none
  | (none, _) => none

/-! ## Spec-side composite formula (claim C1)

`specArtistBonus` renders the specification sentence for the artist
bonus: "0.3 when either normalized artist string contains the other,
else 0.2 when the artist/producer sequence similarity exceeds 0.5,
else 0" — with no non-emptiness condition.  `specArtistBonusAmended`
adds the non-emptiness guard that the source applies. -/

def specArtistBonus (ca pn : String) : Rat :=
  if inStr ca pn || inStr pn ca then 3 / 10
  else if 1 / 2 < similarity_score ca pn then 1 / 5
  else 0

def specArtistBonusAmended (ca pn : String) : Rat :=
  if ca ≠ "" ∧ pn ≠ "" then specArtistBonus ca pn else 0

/-- The claim's composite formula, read sentence by sentence. -/
def specTotalScore (ct ca : String) (t : SpTrack) : Rat :=
  titleScore ct t + specArtistBonus ca (tProducerNorm t) + containsBonus ct t +
    wordBonus ct t + remixBonus ct t

/-- The amended composite formula: identical except that the artist bonus
requires both normalized artist strings to be non-empty. -/
def specTotalScoreAmended (ct ca : String) (t : SpTrack) : Rat :=
  titleScore ct t + specArtistBonusAmended ca (tProducerNorm t) + containsBonus ct t +
    wordBonus ct t + remixBonus ct t

/-! ## Fingerprint-service response model (server.py lines 347-380)

`AcrTrack` models one entry of a metadata bucket of the ACRCloud
response; optional fields mirror `dict.get`.  `artists` carries the
`name` value of each element of the `artists` list (`None` when the key
is absent), `genres` likewise for the `genres` list. -/

structure AcrTrack where
  acrid : Option String := none
  title : Option String := none
  producer_name : Option String := none
  artistName : Option String := none
  artists : List (Option String) := []
  albumStr : Option String := none
  albumName : Option String := none
  genre : Option String := none
  genres : List (Option String) := []
  release_date : Option String := none
  label : Option String := none
  duration_ms : Option Nat := none
  scoreVal : Option Nat := none
  bpm : Option Nat := none
  spynners_track_id : Option String := none
  producer_id : Option String := none
  artwork_url : Option String := none
  play_offset_ms : Option Nat := none
deriving DecidableEq

structure AcrStatus where
  code : Int
  msg : Option String
deriving DecidableEq

/-- Parsed JSON body of the fingerprint-service response:
`status.code` (default −1), `status.msg`, the three metadata buckets and
`metadata.played_duration` (default 0). -/
structure AcrResponse where
  statusCode : Int := -1
  statusMsg : Option String := none
  custom_files : List AcrTrack := []
  music : List AcrTrack := []
  humming : List AcrTrack := []
  played_duration : Nat := 0
deriving DecidableEq

/-- Outcome of one catalog HTTP call: an exception escaping to the
enclosing handler, a non-200 response (the code tests `status_code` and
moves on), or a 200 response with parsed body. -/
inductive CFetch (α : Type) where
  | raiseExc : CFetch α
  | httpErr : CFetch α
  | ok : α → CFetch α
deriving DecidableEq

/-- HTTP-level result of a handler: `HTTPException(status)` or a 200
response with the given JSON body. -/
inductive HttpOutcome (β : Type) where
  | httpError : Nat → HttpOutcome β
  | ok : β → HttpOutcome β
deriving DecidableEq

/-- Unified recognition result body (both the custom-files branch, lines
427-446, and the catalog-enriched branch, lines 632-653; the
not-recognized body, lines 674-678, uses `success`/`message`/
`statusEcho`).  Fields a branch does not set keep their `none`/default
value, which also models JSON keys that branch omits. -/
structure RecognitionResult where
  success : Bool
  message : Option String := none
  statusEcho : Option AcrStatus := none
  title : Option String := none
  artist : Option String := none
  album : Option String := none
  cover_image : Option String := none
  genre : Option String := none
  genres : List String := []
  release_date : Option String := none
  label : Option String := none
  duration_ms : Nat := 0
  scoreVal : Nat := 0
  bpm : Option Nat := none
  energy_level : Option String := none
  mood : Option String := none
  spynners_track_id : Option String := none
  producer_id : Option String := none
  producer_email : Option String := none
  acrcloud_id : Option String := none
  isrc : Option String := none
  play_offset_ms : Nat := 0
  is_spynners_track : Option Bool := none
deriving DecidableEq

/-- Environment for the custom-files branch: what the two best-effort
Spynners lookups returned.  `trackFetch = none` covers exceptions and
non-200 responses alike (both leave the defaults in place);
`producerEmail` is the producer's email when that lookup succeeded. -/
structure CustomEnv where
  trackFetch : Option SpTrack := none
  producerEmail : Option String := none
deriving DecidableEq

/-- Environment for the catalog search of the music branch. -/
structure MusicEnv where
  acrLookup : CFetch (List SpTrack) := .httpErr
  catalogFetch : CFetch (List SpTrack) := .httpErr
  producerEmail : Option String := none
deriving DecidableEq

/-- Instrumentation of one `recognize_audio` call: fingerprint-service
calls made, fuzzy-scoring loop runs, entries scanned by that loop, the
`limit` query parameter of the catalog list request (when issued), and
history-insert attempts/successes. -/
structure RecogEffects where
  acrCalls : Nat := 0
  fuzzyCalls : Nat := 0
  fuzzyScanned : Nat := 0
  catalogLimitParam : Option Nat := none
  historyAttempts : Nat := 0
  historySuccesses : Nat := 0
deriving DecidableEq

/-- The custom-files branch (lines 383-450): read the track's own
fields, optionally complete them from the Spynners track lookup, and
build the result directly; the function returns before the fuzzy search
and before the history write. -/
def buildCustomResult (track : AcrTrack) (cenv : CustomEnv) : RecognitionResult :=
  let acr_id := track.acrid.getD ""
  let track_title := track.title.getD "Unknown"
  let pn := track.producer_name.getD ""
  let track_artist := if pn ≠ "" then pn else track.artistName.getD "Unknown"
  let cover0 := track.artwork_url
  let stid := track.spynners_track_id
  let genre0 := track.genre.getD ""
  let fetched := if truthy stid then cenv.trackFetch else none
  let producer_id := match fetched with
    | some st => st.producer_id
    | none => none
  let cover1 := match fetched with
    | some st => if truthy cover0 then cover0 else st.artwork_url
    | none => cover0
  let genre1 := match fetched with
    | some st => if genre0 ≠ "" then genre0 else st.genre.getD ""
    | none => genre0
  let producer_email := if truthy producer_id then cenv.producerEmail else none
  { success := true
    title := some track_title
    artist := some track_artist
    album := some (track.albumStr.getD "")
    cover_image := cover1
    genre := some genre1
    genres := if genre1 ≠ "" then [genre1] else []
    release_date := some (track.release_date.getD "")
    label := some (track.label.getD "")
    duration_ms := track.duration_ms.getD 0
    scoreVal := track.scoreVal.getD 0
    bpm := track.bpm
    spynners_track_id := stid
    producer_id := producer_id
    producer_email := producer_email
    acrcloud_id := some acr_id
    play_offset_ms := track.play_offset_ms.getD 0
    is_spynners_track := some true }

/-- The Spynners search of the music branch (lines 458-581, the body of
the big `try`): lookup by fingerprint id when one is present, then the
fuzzy fallback over the catalog list request (`limit=500`).  An
exception (`CFetch.raiseExc`) aborts the whole block — it is caught at
line 620 — leaving no match and skipping the fuzzy loop.  Returns the
match and the effect counters `(fuzzyCalls, fuzzyScanned,
catalogLimitParam)`. -/
def musicSearch (acr_id clean_title clean_artist : String) (menv : MusicEnv) :
    Option SpTrack × Nat × Nat × Option Nat :=
  let step1 : Option (Option SpTrack) :=
    if acr_id ≠ "" then
      match menv.acrLookup with
      | .raiseExc => none
      | .httpErr => some none
      | .ok l => some l.head?
    else some none
  match step1 with
  | none => (none, 0, 0, none)
  | some (some st) => (some st, 0, 0, none)
  | some none =>
    match menv.catalogFetch with
    | .raiseExc => (none, 0, 0, some 500)
    | .httpErr => (none, 0, 0, some 500)
    | .ok l => (fuzzyMatch clean_title clean_artist l, 1, l.length, some 500)

/-- Artist display string of the music branch (line 377): join the
artist names with ", ", falling back to "Unknown" when the join is
empty. -/
def musicArtist (track : AcrTrack) : String :=
  let joined := String.intercalate ", " (track.artists.map (fun o => o.getD ""))
  if joined ≠ "" then joined else "Unknown"

/-- The music branch (lines 452-671): search Spynners, extract
genre/artwork/producer, build the enriched result, then attempt the
best-effort history insert when an authorization header is present.
The fire-and-forget `acrcloud_id` write-back (lines 590-601) is inside
its own swallow-all handler and influences neither the response nor any
quantity a claim mentions, so it is not tracked.
`auth = some (some uid)` is a header whose token decodes to `uid`;
`auth = some none` is a header whose token fails to decode (the
exception is swallowed before the insert, line 668); `insertOk` tells
whether the attempted insert itself succeeded (its failure is equally
swallowed). -/
def buildMusicResult (track : AcrTrack) (playedDuration : Nat) (menv : MusicEnv) :
    RecognitionResult × Nat × Nat × Option Nat :=
  let acr_id := track.acrid.getD ""
  let track_title := track.title.getD "Unknown"
  let track_artist := musicArtist track
  let clean_title := normalize_title track_title
  let clean_artist := normalize_title track_artist
  let sr := musicSearch acr_id clean_title clean_artist menv
  let st? := sr.1
  let cover_image := st?.bind (fun st => st.artwork_url)
  let producer_id := st?.bind (fun st => st.producer_id)
  let producer_email := if truthy producer_id then menv.producerEmail else none
  let g1 := match st? with
    | some st => st.genre.getD ""
    | none => ""
  let gfin : Option String := if g1 ≠ "" then some g1 else
    match track.genres with
    | [] => some ""
    | g0 :: _ => g0
  let body : RecognitionResult :=
  { success := true
    title := match st? with
      | some st => st.title
      | none => some track_title
    artist := match st? with
      | some st => st.producer_name
      | none => some track_artist
    album := match st? with
      | some st => some (st.album.getD "")
      | none => some (track.albumName.getD "")
    cover_image := cover_image
    genre := gfin
    genres := if truthy gfin then [gfin.getD ""] else []
    release_date := some (match st? with
      | some st => st.release_date.getD ""
      | none => "")
    label := some (match st? with
      | some st => st.label.getD ""
      | none => "")
    duration_ms := track.duration_ms.getD 0
    scoreVal := track.scoreVal.getD 0
    bpm := st?.bind (fun st => st.bpm)
    energy_level := st?.bind (fun st => st.energy_level)
    mood := st?.bind (fun st => st.mood)
    spynners_track_id := st?.bind (fun st => st.id)
    producer_id := producer_id
    producer_email := producer_email
    acrcloud_id := some acr_id
    isrc := st?.bind (fun st => st.isrc)
    play_offset_ms := playedDuration * 1000 }
  (body, sr.2.1, sr.2.2.1, sr.2.2.2)

/-- The not-recognized body (lines 674-678). -/
def notRecognizedBody (resp : AcrResponse) : RecognitionResult :=
  { success := false
    message := some "Could not identify the track"
    statusEcho := some ⟨resp.statusCode, resp.statusMsg⟩ }

/-- History-insert attempts (lines 659-669): one `insert_one` call when
an authorization header is present and its token decodes; zero
otherwise. -/
def authAttempts (auth : Option (Option String)) : Nat :=
  match auth with
  | some (some _) => 1
  | _ => 0

/-- `recognize_audio` (lines 198-682), from the point where the
(possibly converted) sample is submitted: credentials check (503 before
any network call), the fingerprint call itself (`Except.error` is any
transport exception — timeout, connection error, or a parse failure —
reaching the outer handler, line 680: HTTP 500), branch on `status.code`
and the metadata buckets, and the history write of the music branch. -/
def recognize_audio_model (credsConfigured : Bool) (fetched : Except Unit AcrResponse)
    (cenv : CustomEnv) (menv : MusicEnv) (auth : Option (Option String)) (insertOk : Bool) :
    HttpOutcome RecognitionResult × RecogEffects :=
  if ¬credsConfigured then (.httpError 503, {}) else
  match fetched with
  | .error _ => (.httpError 500, { acrCalls := 1 })
  | .ok resp =>
    if resp.statusCode = 0 then
      match resp.custom_files with
      | track :: _ => (.ok (buildCustomResult track cenv), { acrCalls := 1 })
      | [] =>
        match resp.music with
        | track :: _ =>
          let r := buildMusicResult track resp.played_duration menv
          let attempts := authAttempts auth
          (.ok r.1,
            { acrCalls := 1
              fuzzyCalls := r.2.1
              fuzzyScanned := r.2.2.1
              catalogLimitParam := r.2.2.2
              historyAttempts := attempts
              historySuccesses := if insertOk then attempts else 0 })
        | [] => (.ok (notRecognizedBody resp), { acrCalls := 1 })
    else (.ok (notRecognizedBody resp), { acrCalls := 1 })

/-! ## Temp-file cleanup of the transcoding paths (server.py 249-307, 701-784) -/

/-- How one ffmpeg invocation went: `completed rc outputExists` is a
normal return with exit code `rc`, having created the output file or
not; `raised outputExists` is an exception (e.g. the 30s/120s timeout)
escaping `subprocess.run`, again with or without an output file on
disk. -/
inductive ToolRun where
  | completed : Int → Bool → ToolRun
  | raised : Bool → ToolRun
deriving DecidableEq

/-- The two temp paths of one conversion attempt and whether each still
exists on disk. -/
structure TempFS where
  inputExists : Bool
  outputExists : Bool
deriving DecidableEq

/-- Identify-time conversion block (lines 249-307), entered after the
input temp file has been written.  Success (`rc = 0` and the output file
exists): read the output, unlink both files.  Tool failure (non-zero
exit or missing output): unlink the input file only.  Exception: unlink
whichever of the two files exists.  `os.unlink` itself is modelled as
succeeding (its own failure is swallowed by the source's bare handlers).
Returns the remaining files and whether the converted bytes replaced
the original sample. -/
def identifyConversion (run : ToolRun) : TempFS × Bool :=
  match run with
  | .completed rc outputExists =>
    if rc = 0 ∧ outputExists then (⟨false, false⟩, true)
    else (⟨false, outputExists⟩, false)
  | .raised _ => (⟨false, false⟩, false)

/-- Response body of the `convert_audio` endpoint (payload bytes
abstracted away; only the success flag matters to the claims). -/
structure ConvertBody where
  success : Bool
deriving DecidableEq

/-- `convert_audio` (lines 701-784) from the point where the input temp
file has been written: the `finally` block (lines 773-780) unlinks the
input and the output-if-present on every exit path — normal success,
structured tool failure, and the exception path that becomes HTTP
500. -/
def convertEndpoint (run : ToolRun) : HttpOutcome ConvertBody × TempFS :=
  match run with
  | .completed rc outputExists =>
    if rc = 0 ∧ outputExists then (.ok ⟨true⟩, ⟨false, false⟩)
    else (.ok ⟨false⟩, ⟨false, false⟩)
  | .raised _ => (.httpError 500, ⟨false, false⟩)

/-! ## Offline session processing (server.py lines 2056-2332) -/

/-- One recording of an offline session (`audioBase64` is carried only
as opaque data; a decode failure is part of `ItemEnv.raiseExc`). -/
structure OfflineRec where
  audioB64 : String := ""
  timestampStr : String := ""
deriving DecidableEq

/-- What the external world did for one recording's processing: either
some exception escaped the per-item code (base64 decode error,
fingerprint transport error, response parse error — all caught by the
per-item handler at line 2258), or the fingerprint call returned `resp`
and the Base44 catalog list request (line 2181) behaved as `cat`. -/
inductive ItemEnv where
  | raiseExc : String → ItemEnv
  | resp : AcrResponse → CFetch (List SpTrack) → ItemEnv
deriving DecidableEq

/-- One element of the offline `results` list. -/
structure OfflineItem where
  success : Bool
  message : Option String := none
  title : Option String := none
  artist : Option String := none
  cover_image : Option String := none
  spynners_track_id : Option String := none
  producer_id : Option String := none
  timestampStr : String := ""
  is_spynners_track : Option Bool := none
  source : Option String := none
deriving DecidableEq

/-- The offline two-factor score (lines 2194-2206):
`SequenceMatcher(None, db_title, acr_title).ratio() * 0.7 +
SequenceMatcher(None, db_artist, track_artist.lower()).ratio() * 0.3`,
titles and artists lowercased, `db_artist` falling back from
`producer_name` to `artist`. -/
def offlineScore (track_title track_artist : String) (db : SpTrack) : Rat :=
  let db_title := lowerStr (db.title.getD "")
  let acr_title := lowerStr track_title
  let tSim := ratioQ db_title.data acr_title.data
  let pn := db.producer_name.getD ""
  let db_artist := lowerStr (if pn ≠ "" then pn else db.artistName.getD "")
  let aSim := ratioQ db_artist.data (lowerStr track_artist).data
  tSim * (7 / 10) + aSim * (3 / 10)

/-- The offline best-match loop (lines 2191-2210): keep the best score,
updating only when the combined score beats the running best *and*
exceeds 0.5. -/
def offlineFold (tt ta : String) : List SpTrack → Option SpTrack × Rat → Option SpTrack × Rat
  | [], acc => acc
  | db :: rest, acc =>
    let c := offlineScore tt ta db
    if acc.2 < c ∧ 1 / 2 < c then offlineFold tt ta rest (some db, c)
    else offlineFold tt ta rest acc

def offlineBestMatch (tt ta : String) (all : List SpTrack) : Option SpTrack :=
  (offlineFold tt ta all (none, 0)).1

/-- Per-recording processing (lines 2068-2264).  Returns the `results`
entry together with the flag "appended to `identified_tracks`"
(line 2239: `is_custom and spynners_track_id` truthy). -/
def processRecording (rec : OfflineRec) (env : ItemEnv) : OfflineItem × Bool :=
  match env with
  | .raiseExc msg =>
    ({ success := false, message := some msg, timestampStr := rec.timestampStr }, false)
  | .resp r cat =>
    if r.statusCode = 0 then
      let bucket : Option (AcrTrack × String × Bool) :=
        match r.custom_files, r.music, r.humming with
        | t :: _, _, _ => some (t, "custom_files", true)
        | [], t :: _, _ => some (t, "music", false)
        | [], [], t :: _ => some (t, "humming", false)
        | [], [], [] => none
      match bucket with
      | none =>
        ({ success := false, message := some "No track in response",
           timestampStr := rec.timestampStr }, false)
      | some (track, src, isCustom0) =>
        let track_title := track.title.getD "Unknown"
        let ta0 :=
          if isCustom0 then
            let pn := track.producer_name.getD ""
            if pn ≠ "" then pn else track.artistName.getD "Unknown"
          else
            match track.artists with
            | [] => track.artistName.getD "Unknown"
            | l =>
              String.intercalate ", "
                ((l.filter (fun o => o.getD "" ≠ "")).map (fun o => o.getD ""))
        let track_artist := if ta0 = "" then "Unknown" else ta0
        let matched : Option SpTrack × Bool :=
          if isCustom0 then (none, true)
          else
            match cat with
            | .raiseExc => (none, false)
            | .httpErr => (none, false)
            | .ok allTracks =>
              match offlineBestMatch track_title track_artist allTracks with
              | some bm => (some bm, true)
              | none => (none, false)
        let stid := if isCustom0 then track.spynners_track_id
          else matched.1.bind (fun bm => bm.id)
        let pid := if isCustom0 then track.producer_id
          else matched.1.bind (fun bm => bm.producer_id)
        let cover := if isCustom0 then track.artwork_url
          else matched.1.bind (fun bm => bm.artwork_url)
        let isCustom := matched.2
        ({ success := true
           title := some track_title
           artist := some track_artist
           cover_image := cover
           spynners_track_id := stid
           producer_id := pid
           timestampStr := rec.timestampStr
           is_spynners_track := some (isCustom && stid.isSome)
           source := some src }, isCustom && truthy stid)
    else
      ({ success := false
         message := some ((r.statusMsg).getD "Recognition failed")
         timestampStr := rec.timestampStr }, false)

/-- Aggregated offline response body (lines 2322-2328). -/
structure OfflineAggregate where
  success : Bool
  sessionId : String
  totalRecordings : Nat
  identifiedTracks : Nat
  results : List OfflineItem
deriving DecidableEq

def offlineItems (recs : List (OfflineRec × ItemEnv)) : List OfflineItem :=
  recs.map (fun p => (processRecording p.1 p.2).1)

def offlineIdentifiedCount (recs : List (OfflineRec × ItemEnv)) : Nat :=
  (recs.filter (fun p => (processRecording p.1 p.2).2)).length

/-- `process_offline_session` (lines 2056-2332).  The handler never
checks the fingerprint credentials — `credsConfigured` is accepted and
ignored, exactly as the source only reads the key/secret to build each
signed request.  Per-recording failures become failed `results` entries;
the whole-session store write (line 2280, not wrapped in a handler) is
the only step whose failure (`dbInsertOk = false`) reaches the outer
handler and becomes HTTP 500.  The producer notification emails
(lines 2286-2318) are individually wrapped and never affect the
response. -/
def process_offline_session_model (credsConfigured : Bool) (sessionId : String)
    (recs : List (OfflineRec × ItemEnv)) (dbInsertOk : Bool) :
    HttpOutcome OfflineAggregate :=
  let _ := credsConfigured
  if dbInsertOk then
    .ok { success := true
          sessionId := sessionId
          totalRecordings := recs.length
          identifiedTracks := offlineIdentifiedCount recs
          results := offlineItems recs }
  else .httpError 500

/-! ## Bounds for the similarity ratio -/

/-- Plain sum of the block sizes. -/
def blocksSum : List (Nat × Nat × Nat) → Nat
  | [] => 0
  | m :: rest => m.2.2 + blocksSum rest

lemma blocksSum_append (xs ys : List (Nat × Nat × Nat)) :
    blocksSum (xs ++ ys) = blocksSum xs + blocksSum ys := by
  induction xs with
  | nil => simp [blocksSum]
  | cons m xs ih => simp [blocksSum, ih]; omega

lemma foldl_add_eq_blocksSum (l : List (Nat × Nat × Nat)) :
    ∀ n : Nat, ((l.map (fun m => m.2.2)).foldl (· + ·) n) = n + blocksSum l := by
  induction l with
  | nil => intro n; simp [blocksSum]
  | cons m rest ih => intro n; simp [blocksSum, ih]; omega

lemma matchSum_eq_blocksSum (a b : List Char) :
    matchSum a b = blocksSum (matchingBlocks a b) := by
  unfold matchSum
  simpa using foldl_add_eq_blocksSum (matchingBlocks a b) 0

lemma blocksSum_aux_le_left (a b : List Char) :
    ∀ fuel alo ahi blo bhi,
      blocksSum (matchingBlocksAux a b fuel alo ahi blo bhi) ≤ ahi - alo := by
  intro fuel
  induction fuel with
  | zero => intro alo ahi blo bhi; simp [matchingBlocksAux, blocksSum]
  | succ fuel ih =>
    intro alo ahi blo bhi
    rw [matchingBlocksAux]
    split
    case isTrue h =>
      rw [blocksSum_append]
      have h1 := ih alo (findLongestMatch a b alo ahi blo bhi).1 blo
        (findLongestMatch a b alo ahi blo bhi).2.1
      have h2 := ih ((findLongestMatch a b alo ahi blo bhi).1 +
          (findLongestMatch a b alo ahi blo bhi).2.2) ahi
        ((findLongestMatch a b alo ahi blo bhi).2.1 +
          (findLongestMatch a b alo ahi blo bhi).2.2) bhi
      simp only [blocksSum]
      omega
    case isFalse => simp [blocksSum]

lemma blocksSum_aux_le_right (a b : List Char) :
    ∀ fuel alo ahi blo bhi,
      blocksSum (matchingBlocksAux a b fuel alo ahi blo bhi) ≤ bhi - blo := by
  intro fuel
  induction fuel with
  | zero => intro alo ahi blo bhi; simp [matchingBlocksAux, blocksSum]
  | succ fuel ih =>
    intro alo ahi blo bhi
    rw [matchingBlocksAux]
    split
    case isTrue h =>
      rw [blocksSum_append]
      have h1 := ih alo (findLongestMatch a b alo ahi blo bhi).1 blo
        (findLongestMatch a b alo ahi blo bhi).2.1
      have h2 := ih ((findLongestMatch a b alo ahi blo bhi).1 +
          (findLongestMatch a b alo ahi blo bhi).2.2) ahi
        ((findLongestMatch a b alo ahi blo bhi).2.1 +
          (findLongestMatch a b alo ahi blo bhi).2.2) bhi
      simp only [blocksSum]
      omega
    case isFalse => simp [blocksSum]

lemma matchSum_le_left (a b : List Char) : matchSum a b ≤ a.length := by
  rw [matchSum_eq_blocksSum]
  have := blocksSum_aux_le_left a b (a.length + b.length + 1) 0 a.length 0 b.length
  simpa [matchingBlocks] using this

lemma matchSum_le_right (a b : List Char) : matchSum a b ≤ b.length := by
  rw [matchSum_eq_blocksSum]
  have := blocksSum_aux_le_right a b (a.length + b.length + 1) 0 a.length 0 b.length
  simpa [matchingBlocks] using this

lemma ratioQ_le_one (a b : List Char) : ratioQ a b ≤ 1 := by
  unfold ratioQ
  split
  case isTrue => exact le_refl 1
  case isFalse h =>
    have hpos : 0 < a.length + b.length := Nat.pos_of_ne_zero h
    have hM : 2 * matchSum a b ≤ a.length + b.length := by
      have h1 := matchSum_le_left a b
      have h2 := matchSum_le_right a b
      omega
    have hposQ : (0 : Rat) < ((a.length + b.length : Nat) : Rat) := by
      exact_mod_cast hpos
    rw [div_le_one hposQ]
    have : ((2 * matchSum a b : Nat) : Rat) ≤ ((a.length + b.length : Nat) : Rat) := by
      exact_mod_cast hM
    calc (2 * (matchSum a b : Rat)) = ((2 * matchSum a b : Nat) : Rat) := by push_cast; ring
    _ ≤ _ := this

lemma ratioQ_nonneg (a b : List Char) : 0 ≤ ratioQ a b := by
  unfold ratioQ
  split
  case isTrue => norm_num
  case isFalse h => positivity

lemma similarity_score_le_one (x y : String) : similarity_score x y ≤ 1 :=
  ratioQ_le_one x.data y.data

lemma similarity_score_nonneg (x y : String) : 0 ≤ similarity_score x y :=
  ratioQ_nonneg x.data y.data

/-- Evaluation helper: the ratio at concrete match count and lengths. -/
lemma ratioQ_eval (a b : List Char) (M n : Nat) (hM : matchSum a b = M)
    (hn : a.length + b.length = n) (h0 : n ≠ 0) :
    ratioQ a b = (2 * (M : Rat)) / (n : Rat) := by
  unfold ratioQ
  rw [hn, hM, if_neg h0]

/-! ## Fuel adequacy

The fueled recursions (`subParensAux`, `matchingBlocksAux`,
`extendRight`) are exact models of loops whose termination Python gets
for free; the lemmas below show the chosen initial fuel never binds, so
the fueled definitions agree with the unbounded loops. -/

lemma breakAt_length (p : Char → Bool) :
    ∀ (cs pre post : List Char), breakAt p cs = some (pre, post) →
      cs.length = pre.length + post.length + 1 := by
  intro cs
  induction cs with
  | nil => intro pre post h; exact Option.noConfusion h
  | cons c cs ih =>
    intro pre post h
    rw [breakAt] at h
    by_cases hc : p c
    · rw [if_pos hc] at h
      obtain ⟨h1, h2⟩ := Prod.mk.injEq .. ▸ Option.some.inj h
      subst h1; subst h2
      simp
    · rw [if_neg hc] at h
      cases hb : breakAt p cs with
      | none => rw [hb] at h; exact Option.noConfusion h
      | some q =>
        rw [hb] at h
        obtain ⟨h1, h2⟩ := Prod.mk.injEq .. ▸ Option.some.inj h
        subst h1; subst h2
        have := ih q.1 q.2 (by rw [hb])
        simp [this]
        omega

lemma subParensAux_nil (f : Nat) : subParensAux f [] = [] := by
  cases f with
  | zero => rfl
  | succ f => rfl

lemma dropWhile_length_le (p : Char → Bool) (l : List Char) :
    (l.dropWhile p).length ≤ l.length := by
  induction l with
  | nil => simp
  | cons c cs ih =>
    rw [List.dropWhile]
    by_cases h : p c
    · rw [h]
      simp
      omega
    · simp [h]

lemma subParensAux_fuel :
    ∀ (f1 : Nat) (cs : List Char) (f2 : Nat), cs.length ≤ f1 → cs.length ≤ f2 →
      subParensAux f1 cs = subParensAux f2 cs := by
  intro f1
  induction f1 with
  | zero =>
    intro cs f2 h1 _
    have : cs = [] := List.length_eq_zero.1 (Nat.le_zero.1 h1)
    subst this
    rw [subParensAux_nil, subParensAux_nil]
  | succ f1 ih =>
    intro cs f2 h1 h2
    cases f2 with
    | zero =>
      have : cs = [] := List.length_eq_zero.1 (Nat.le_zero.1 h2)
      subst this
      rw [subParensAux_nil, subParensAux_nil]
    | succ f2 =>
      rw [subParensAux, subParensAux]
      cases hb1 : breakAt (fun c => c = '(') cs with
      | none => rfl
      | some q1 =>
        obtain ⟨pre1, rest1⟩ := q1
        cases hb2 : breakAt (fun c => c = ')') rest1 with
        | none => simp only [hb2]
        | some q2 =>
          obtain ⟨content2, post2⟩ := q2
          have hl1 := breakAt_length _ cs pre1 rest1 hb1
          have hl2 := breakAt_length _ rest1 content2 post2 hb2
          have hdrop : (post2.dropWhile isSpaceChar).length ≤ post2.length :=
            dropWhile_length_le _ _
          have harg : (post2.dropWhile isSpaceChar).length ≤ f1 := by omega
          have harg2 : (post2.dropWhile isSpaceChar).length ≤ f2 := by omega
          simp only [hb2]
          rw [ih (post2.dropWhile isSpaceChar) f2 harg harg2]

/-- The standard fuel of `subParens` equals any sufficient fuel. -/
lemma subParens_fuel_irrelevant (cs : List Char) (f : Nat) (hf : cs.length ≤ f) :
    subParensAux f cs = subParens cs :=
  subParensAux_fuel f cs cs.length hf (le_refl _)

lemma matchingBlocksAux_fuel (a b : List Char) :
    ∀ (f1 alo ahi blo bhi f2 : Nat),
      (ahi - alo) + (bhi - blo) < f1 → (ahi - alo) + (bhi - blo) < f2 →
      matchingBlocksAux a b f1 alo ahi blo bhi = matchingBlocksAux a b f2 alo ahi blo bhi := by
  intro f1
  induction f1 with
  | zero => intro alo ahi blo bhi f2 h1 _; omega
  | succ f1 ih =>
    intro alo ahi blo bhi f2 h1 h2
    cases f2 with
    | zero => omega
    | succ f2 =>
      rw [matchingBlocksAux, matchingBlocksAux]
      split
      case isTrue h =>
        obtain ⟨hk, hai, hak, hbj, hbk⟩ := h
        have hL : ((findLongestMatch a b alo ahi blo bhi).1 - alo) +
            ((findLongestMatch a b alo ahi blo bhi).2.1 - blo) <
            (ahi - alo) + (bhi - blo) := by omega
        have hR : (ahi - ((findLongestMatch a b alo ahi blo bhi).1 +
              (findLongestMatch a b alo ahi blo bhi).2.2)) +
            (bhi - ((findLongestMatch a b alo ahi blo bhi).2.1 +
              (findLongestMatch a b alo ahi blo bhi).2.2)) <
            (ahi - alo) + (bhi - blo) := by omega
        rw [ih alo (findLongestMatch a b alo ahi blo bhi).1 blo
            (findLongestMatch a b alo ahi blo bhi).2.1 f2 (by omega) (by omega),
          ih ((findLongestMatch a b alo ahi blo bhi).1 +
              (findLongestMatch a b alo ahi blo bhi).2.2) ahi
            ((findLongestMatch a b alo ahi blo bhi).2.1 +
              (findLongestMatch a b alo ahi blo bhi).2.2) bhi f2 (by omega) (by omega)]
      case isFalse => rfl

/-- The standard fuel of `matchingBlocks` equals any sufficient fuel. -/
lemma matchingBlocks_fuel_irrelevant (a b : List Char) (f : Nat)
    (hf : a.length + b.length < f) :
    matchingBlocksAux a b f 0 a.length 0 b.length = matchingBlocks a b := by
  unfold matchingBlocks
  exact matchingBlocksAux_fuel a b f 0 a.length 0 b.length (a.length + b.length + 1)
    (by omega) (by omega)

lemma extendRight_fuel (a b : List Char) (ahi bhi besti bestj : Nat) :
    ∀ (f1 s f2 : Nat), ahi ≤ s + f1 → ahi ≤ s + f2 →
      extendRight a b ahi bhi besti bestj f1 s = extendRight a b ahi bhi besti bestj f2 s := by
  intro f1
  induction f1 with
  | zero =>
    intro s f2 h1 _
    cases f2 with
    | zero => rfl
    | succ f2 =>
      rw [extendRight, extendRight]
      rw [if_neg]
      rintro ⟨hlt, -, -⟩
      omega
  | succ f1 ih =>
    intro s f2 h1 h2
    cases f2 with
    | zero =>
      rw [extendRight, extendRight]
      rw [if_neg]
      rintro ⟨hlt, -, -⟩
      omega
    | succ f2 =>
      rw [extendRight, extendRight]
      split
      case isTrue h => exact ih (s + 1) f2 (by omega) (by omega)
      case isFalse => rfl

/-! ## Bounds for the composite score -/

lemma titleScore_le_one (ct : String) (t : SpTrack) : titleScore ct t ≤ 1 :=
  similarity_score_le_one _ _

lemma artistBonus_le (ca : String) (t : SpTrack) : artistBonus ca t ≤ 3 / 10 := by
  simp only [artistBonus]
  split_ifs <;> norm_num

lemma containsBonus_le (ct : String) (t : SpTrack) : containsBonus ct t ≤ 1 / 5 := by
  unfold containsBonus
  split <;> norm_num

lemma remixBonus_le (ct : String) (t : SpTrack) : remixBonus ct t ≤ 3 / 20 := by
  unfold remixBonus
  split <;> [skip; norm_num]
  split <;> norm_num

lemma wordBonus_le (ct : String) (t : SpTrack) : wordBonus ct t ≤ 3 / 10 := by
  simp only [wordBonus]
  split
  case isTrue h =>
    have hcm : ((wordSet ct).filter (fun w => w ∈ wordSet (tTitleNorm t))).length ≤
        (wordSet ct).length := List.length_filter_le _ _
    have hmax : (wordSet ct).length ≤ max (wordSet ct).length (wordSet (tTitleNorm t)).length :=
      le_max_left _ _
    have hpos : 0 < max (wordSet ct).length (wordSet (tTitleNorm t)).length := by omega
    have hposQ : (0 : Rat) <
        ((max (wordSet ct).length (wordSet (tTitleNorm t)).length : Nat) : Rat) := by
      exact_mod_cast hpos
    have hle : ((((wordSet ct).filter (fun w => w ∈ wordSet (tTitleNorm t))).length : Rat)) ≤
        ((max (wordSet ct).length (wordSet (tTitleNorm t)).length : Nat) : Rat) := by
      exact_mod_cast le_trans hcm hmax
    have hdiv : ((((wordSet ct).filter (fun w => w ∈ wordSet (tTitleNorm t))).length : Rat)) /
        ((max (wordSet ct).length (wordSet (tTitleNorm t)).length : Nat) : Rat) ≤ 1 :=
      (div_le_one hposQ).2 hle
    calc _ ≤ (1 : Rat) * (3 / 10) := by
          exact mul_le_mul_of_nonneg_right hdiv (by norm_num)
    _ = 3 / 10 := by norm_num
  case isFalse => norm_num

lemma totalScore_le (ct ca : String) (t : SpTrack) : totalScore ct ca t ≤ 39 / 20 := by
  have h1 := titleScore_le_one ct t
  have h2 := artistBonus_le ca t
  have h3 := containsBonus_le ct t
  have h4 := wordBonus_le ct t
  have h5 := remixBonus_le ct t
  unfold totalScore
  linarith

lemma entryScore_le_two (ct ca : String) (t : SpTrack) : entryScore ct ca t ≤ 2 := by
  unfold entryScore
  split
  case isTrue => norm_num
  case isFalse =>
    have := totalScore_le ct ca t
    linarith

lemma entryScore_of_exact (ct ca : String) (t : SpTrack) (h : tTitleNorm t = ct) :
    entryScore ct ca t = 2 := by
  unfold entryScore
  rw [if_pos h]

lemma exact_of_entryScore_eq_two (ct ca : String) (t : SpTrack)
    (h : entryScore ct ca t = 2) : tTitleNorm t = ct := by
  by_contra hne
  rw [entryScore, if_neg hne] at h
  have := totalScore_le ct ca t
  rw [h] at this
  norm_num at this

/-! ## Characterization of the scoring loop -/

/-- What `fuzzyFold` computes from an arbitrary running state `(bm, b)`:
either no entry beats `b` and the state is returned unchanged, or the
result is the first eligible entry that beats `b` and every later
eligible entry's score, with all earlier eligible entries scoring
strictly below it and all later ones at most it (so equal top scores
keep the first entry seen). -/
lemma fuzzyFold_spec (ct ca : String) :
    ∀ (ts : List SpTrack) (bm : Option SpTrack) (b : Rat),
      (fuzzyFold ct ca ts (bm, b) = (bm, b) ∧
        ∀ t ∈ ts, t.title.getD "" ≠ "" → entryScore ct ca t ≤ b) ∨
      (∃ pre t post, ts = pre ++ t :: post ∧ t.title.getD "" ≠ "" ∧
        fuzzyFold ct ca ts (bm, b) = (some t, entryScore ct ca t) ∧
        b < entryScore ct ca t ∧
        (∀ u ∈ pre, u.title.getD "" ≠ "" → entryScore ct ca u < entryScore ct ca t) ∧
        (∀ u ∈ post, u.title.getD "" ≠ "" → entryScore ct ca u ≤ entryScore ct ca t)) := by
  intro ts
  induction ts with
  | nil =>
    intro bm b
    left
    constructor
    · rfl
    · intro t ht; cases ht
  | cons t0 ts ih =>
    intro bm b
    by_cases h0 : t0.title.getD "" = ""
    · have hstep : fuzzyFold ct ca (t0 :: ts) (bm, b) = fuzzyFold ct ca ts (bm, b) := by
        rw [fuzzyFold, if_pos h0]
      rcases ih bm b with ⟨hf, hall⟩ | ⟨pre, t, post, hts, ht, hf, hlt, hpre, hpost⟩
      · left
        refine ⟨hstep.trans hf, ?_⟩
        intro u hu hune
        rcases List.mem_cons.1 hu with rfl | hu
        · exact absurd h0 hune
        · exact hall u hu hune
      · right
        refine ⟨t0 :: pre, t, post, by rw [hts]; rfl, ht, hstep.trans hf, hlt, ?_, hpost⟩
        intro u hu hune
        rcases List.mem_cons.1 hu with rfl | hu
        · exact absurd h0 hune
        · exact hpre u hu hune
    · by_cases hlt0 : b < entryScore ct ca t0
      · have hstep : fuzzyFold ct ca (t0 :: ts) (bm, b) =
            fuzzyFold ct ca ts (some t0, entryScore ct ca t0) := by
          rw [fuzzyFold, if_neg h0]
          simp only []
          rw [if_pos hlt0]
        rcases ih (some t0) (entryScore ct ca t0) with ⟨hf, hall⟩ |
          ⟨pre, t, post, hts, ht, hf, hlt, hpre, hpost⟩
        · right
          refine ⟨[], t0, ts, rfl, h0, hstep.trans hf, hlt0, ?_, hall⟩
          intro u hu
          cases hu
        · right
          refine ⟨t0 :: pre, t, post, by rw [hts]; rfl, ht, hstep.trans hf,
            lt_trans hlt0 hlt, ?_, hpost⟩
          intro u hu hune
          rcases List.mem_cons.1 hu with rfl | hu
          · exact hlt
          · exact hpre u hu hune
      · have hstep : fuzzyFold ct ca (t0 :: ts) (bm, b) = fuzzyFold ct ca ts (bm, b) := by
          rw [fuzzyFold, if_neg h0]
          simp only []
          rw [if_neg hlt0]
        rcases ih bm b with ⟨hf, hall⟩ | ⟨pre, t, post, hts, ht, hf, hlt, hpre, hpost⟩
        · left
          refine ⟨hstep.trans hf, ?_⟩
          intro u hu hune
          rcases List.mem_cons.1 hu with rfl | hu
          · exact le_of_not_lt hlt0
          · exact hall u hu hune
        · right
          refine ⟨t0 :: pre, t, post, by rw [hts]; rfl, ht, hstep.trans hf, hlt, ?_, hpost⟩
          intro u hu hune
          rcases List.mem_cons.1 hu with rfl | hu
          · exact lt_of_le_of_lt (le_of_not_lt hlt0) hlt
          · exact hpre u hu hune

/-! ## Claim C1 — the composite fuzzy-score formula -/

/-- The source's artist bonus equals the claim's formula amended with the
non-emptiness guard (the zeta-reduced branches coincide). -/
lemma artistBonus_eq_amended (ca : String) (t : SpTrack) :
    artistBonus ca t = specArtistBonusAmended ca (tProducerNorm t) := by
  simp only [artistBonus, specArtistBonusAmended, specArtistBonus]

/-- Catalog entry of the C1 counterexample. -/
def c1Track : SpTrack := { title := some "qq", producer_name := some "abc" }

/-- C1 counterexample: for the candidate `("zz", "!!!")` — whose
normalized artist is empty — and the entry `c1Track`, the source's total
is 0 while the claim's formula (whose artist bonus lacks the
non-emptiness guard and awards 0.3 because the empty string is contained
in every string) gives 0.3. -/
theorem C1_counterexample :
    c1Track.title.getD "" ≠ "" ∧
    totalScore (normalize_title "zz") (normalize_title "!!!") c1Track = 0 ∧
    specTotalScore (normalize_title "zz") (normalize_title "!!!") c1Track = 3 / 10 ∧
    totalScore (normalize_title "zz") (normalize_title "!!!") c1Track ≠
      specTotalScore (normalize_title "zz") (normalize_title "!!!") c1Track := by
  have hz : normalize_title "zz" = "zz" := by decide
  have hb : normalize_title "!!!" = "" := by decide
  have h1 : titleScore "zz" c1Track = 0 := by
    unfold titleScore similarity_score
    rw [show tTitleNorm c1Track = "qq" from by decide]
    rw [ratioQ_eval _ _ 0 4 (by decide) (by decide) (by decide)]
    norm_num
  have h2 : artistBonus "" c1Track = 0 := by
    simp [artistBonus]
  have h3 : containsBonus "zz" c1Track = 0 := by
    unfold containsBonus
    rw [if_neg (by decide)]
  have h4 : wordBonus "zz" c1Track = 0 := by
    simp only [wordBonus]
    rw [if_neg (by decide)]
  have h5 : remixBonus "zz" c1Track = 0 := by
    simp only [remixBonus]
    rw [if_neg (by decide)]
  have hs : specArtistBonus "" (tProducerNorm c1Track) = 3 / 10 := by
    unfold specArtistBonus
    rw [if_pos (by decide)]
  rw [hz, hb]
  refine ⟨by decide, ?_, ?_, ?_⟩
  · unfold totalScore
    rw [h1, h2, h3, h4, h5]
    norm_num
  · unfold specTotalScore
    rw [h1, hs, h3, h4, h5]
    norm_num
  · unfold totalScore specTotalScore
    rw [h1, h2, h3, h4, h5, hs]
    norm_num

/-- C1 amended: for every fingerprint candidate and every catalog entry
with a non-empty title, the source's fuzzy score is the claimed sum of
title score, artist bonus, contains bonus, word bonus and remix bonus —
with the artist bonus additionally requiring both normalized artist
strings to be non-empty (otherwise it is 0). -/
theorem C1_amended (title artist : String) (t : SpTrack) (h : t.title.getD "" ≠ "") :
    totalScore (normalize_title title) (normalize_title artist) t =
      specTotalScoreAmended (normalize_title title) (normalize_title artist) t := by
  unfold totalScore specTotalScoreAmended
  rw [artistBonus_eq_amended]

theorem C1_amended_witness :
    c1Track.title.getD "" ≠ "" ∧
    totalScore (normalize_title "zz") (normalize_title "xy") c1Track =
      specTotalScoreAmended (normalize_title "zz") (normalize_title "xy") c1Track :=
  ⟨by decide, C1_amended "zz" "xy" c1Track (by decide)⟩

/-! ## Claim C2 — exact-title short-circuit -/

/-- C2: when some fetched entry with a non-empty title normalizes to the
normalized candidate title, selection is forced to an exact-title entry:
the best score is the override value 2.0, accepted since `2 ≥ 0.45`, and
every score achievable without the override is at most 1.95 < 2. -/
theorem C2_exact_short_circuit (candTitle candArtist : String) (ts : List SpTrack)
    (h : ∃ t ∈ ts, t.title.getD "" ≠ "" ∧
      normalize_title (t.title.getD "") = normalize_title candTitle) :
    (∃ t, fuzzyMatch (normalize_title candTitle) (normalize_title candArtist) ts = some t ∧
      normalize_title (t.title.getD "") = normalize_title candTitle) ∧
    (fuzzyBest (normalize_title candTitle) (normalize_title candArtist) ts).2 = 2 ∧
    ((9 : Rat) / 20 ≤ 2) ∧
    (∀ ct ca u, totalScore ct ca u ≤ 39 / 20) ∧
    ((39 : Rat) / 20 < 2) := by
  obtain ⟨te, hte, hteN, hteEq⟩ := h
  have hteExact : tTitleNorm te = normalize_title candTitle := hteEq
  rcases fuzzyFold_spec (normalize_title candTitle) (normalize_title candArtist) ts none 0 with
    ⟨hf, hall⟩ | ⟨pre, t, post, hts, ht, hf, hlt, hpre, hpost⟩
  · exfalso
    have h2 : entryScore (normalize_title candTitle) (normalize_title candArtist) te = 2 :=
      entryScore_of_exact _ _ _ hteExact
    have := hall te hte hteN
    rw [h2] at this
    norm_num at this
  · have hb : fuzzyBest (normalize_title candTitle) (normalize_title candArtist) ts =
        (some t, entryScore (normalize_title candTitle) (normalize_title candArtist) t) := hf
    have hsle := entryScore_le_two (normalize_title candTitle) (normalize_title candArtist) t
    have h2e : entryScore (normalize_title candTitle) (normalize_title candArtist) te = 2 :=
      entryScore_of_exact _ _ _ hteExact
    have hs2 : entryScore (normalize_title candTitle) (normalize_title candArtist) t = 2 := by
      rw [hts] at hte
      rcases List.mem_append.1 hte with hpe | hrest
      · have := hpre te hpe hteN
        rw [h2e] at this
        linarith
      · rcases List.mem_cons.1 hrest with rfl | hpo
        · exact h2e
        · have := hpost te hpo hteN
          rw [h2e] at this
          linarith
    have htex : tTitleNorm t = normalize_title candTitle :=
      exact_of_entryScore_eq_two _ _ _ hs2
    have hm : fuzzyMatch (normalize_title candTitle) (normalize_title candArtist) ts = some t := by
      unfold fuzzyMatch
      rw [hb]
      show (if (9 : Rat) / 20 ≤
        entryScore (normalize_title candTitle) (normalize_title candArtist) t
        then some t else none) = some t
      rw [hs2, if_pos (by norm_num)]
    refine ⟨⟨t, hm, htex⟩, ?_, by norm_num, fun ct ca u => totalScore_le ct ca u, by norm_num⟩
    rw [hb, hs2]

/-- Concrete entry for the C2 witness: spec scenario "Sunrise (Extended
Mix)" against catalog "Sunrise" with a mismatched artist. -/
def c2Entry : SpTrack := { title := some "Sunrise", producer_name := some "Other Person" }

theorem C2_witness :
    (∃ t ∈ [c2Entry], t.title.getD "" ≠ "" ∧
      normalize_title (t.title.getD "") = normalize_title "Sunrise (Extended Mix)") ∧
    ((∃ t, fuzzyMatch (normalize_title "Sunrise (Extended Mix)") (normalize_title "Nobody")
        [c2Entry] = some t ∧
      normalize_title (t.title.getD "") = normalize_title "Sunrise (Extended Mix)") ∧
    (fuzzyBest (normalize_title "Sunrise (Extended Mix)") (normalize_title "Nobody")
      [c2Entry]).2 = 2 ∧
    ((9 : Rat) / 20 ≤ 2) ∧
    (∀ ct ca u, totalScore ct ca u ≤ 39 / 20) ∧
    ((39 : Rat) / 20 < 2)) :=
  ⟨⟨c2Entry, List.mem_singleton.2 rfl, by decide, by decide⟩,
    C2_exact_short_circuit "Sunrise (Extended Mix)" "Nobody" [c2Entry]
      ⟨c2Entry, List.mem_singleton.2 rfl, by decide, by decide⟩⟩

/-! ## Claim C3 — acceptance threshold and tie-breaking -/

/-- C3: the fuzzy fallback accepts exactly at best score ≥ 0.45; below
the threshold no match is returned; an accepted match is the first-seen
entry among those attaining the top score (all earlier eligible entries
score strictly lower, all entries score at most it). -/
theorem C3_threshold (ct ca : String) (ts : List SpTrack) :
    ((fuzzyBest ct ca ts).2 < 9 / 20 → fuzzyMatch ct ca ts = none) ∧
    (9 / 20 ≤ (fuzzyBest ct ca ts).2 →
      ∃ pre t post, ts = pre ++ t :: post ∧ t.title.getD "" ≠ "" ∧
        fuzzyMatch ct ca ts = some t ∧
        entryScore ct ca t = (fuzzyBest ct ca ts).2 ∧
        (∀ u ∈ pre, u.title.getD "" ≠ "" → entryScore ct ca u < entryScore ct ca t) ∧
        (∀ u ∈ ts, u.title.getD "" ≠ "" → entryScore ct ca u ≤ entryScore ct ca t)) ∧
    (∀ t, fuzzyMatch ct ca ts = some t → 9 / 20 ≤ (fuzzyBest ct ca ts).2) := by
  rcases fuzzyFold_spec ct ca ts none 0 with ⟨hf, hall⟩ |
    ⟨pre, t, post, hts, ht, hf, hlt, hpre, hpost⟩
  · have hb : fuzzyBest ct ca ts = (none, 0) := hf
    refine ⟨?_, ?_, ?_⟩
    · intro _
      unfold fuzzyMatch
      rw [hb]
    · intro hge
      rw [hb] at hge
      norm_num at hge
    · intro t hm
      exfalso
      unfold fuzzyMatch at hm
      rw [hb] at hm
      exact Option.noConfusion hm
  · have hb : fuzzyBest ct ca ts = (some t, entryScore ct ca t) := hf
    refine ⟨?_, ?_, ?_⟩
    · intro hltT
      rw [hb] at hltT
      unfold fuzzyMatch
      rw [hb]
      show (if (9 : Rat) / 20 ≤ entryScore ct ca t then some t else none) = none
      rw [if_neg (not_le.2 hltT)]
    · intro hge
      rw [hb] at hge
      refine ⟨pre, t, post, hts, ht, ?_, by rw [hb], hpre, ?_⟩
      · unfold fuzzyMatch
        rw [hb]
        show (if (9 : Rat) / 20 ≤ entryScore ct ca t then some t else none) = some t
        rw [if_pos hge]
      · intro u hu hune
        rw [hts] at hu
        rcases List.mem_append.1 hu with hpe | hrest
        · exact le_of_lt (hpre u hpe hune)
        · rcases List.mem_cons.1 hrest with rfl | hpo
          · exact le_refl _
          · exact hpost u hpo hune
    · intro t' hm
      unfold fuzzyMatch at hm
      rw [hb] at hm
      by_cases hc : (9 : Rat) / 20 ≤ entryScore ct ca t
      · rw [hb]
        exact hc
      · exfalso
        have : (if (9 : Rat) / 20 ≤ entryScore ct ca t then some t else none) = some t' := hm
        rw [if_neg hc] at this
        exact Option.noConfusion this

/-- Entry engineered to score exactly 0.45 against candidate
`("abcqqqqqqqqqqqqqqqqq", "xy")`: title similarity `2·3/40 = 0.15` plus
artist containment bonus `0.3`, no other bonus. -/
def c3Entry : SpTrack := { title := some "abczzzzzzzzzzzzzzzzz", producer_name := some "xy" }

/-- Entry scoring 0 against candidate `("zz", "")`: rejected side of the
threshold. -/
def c3Reject : SpTrack := { title := some "qq" }

lemma c3Entry_score : entryScore "abcqqqqqqqqqqqqqqqqq" "xy" c3Entry = 9 / 20 := by
  have h1 : titleScore "abcqqqqqqqqqqqqqqqqq" c3Entry = 3 / 20 := by
    unfold titleScore similarity_score
    rw [show tTitleNorm c3Entry = "abczzzzzzzzzzzzzzzzz" from by decide]
    rw [ratioQ_eval _ _ 3 40 (by decide) (by decide) (by decide)]
    norm_num
  have h2 : artistBonus "xy" c3Entry = 3 / 10 := by
    simp only [artistBonus]
    rw [if_pos (by decide), if_pos (by decide)]
  have h3 : containsBonus "abcqqqqqqqqqqqqqqqqq" c3Entry = 0 := by
    unfold containsBonus
    rw [if_neg (by decide)]
  have h4 : wordBonus "abcqqqqqqqqqqqqqqqqq" c3Entry = 0 := by
    simp only [wordBonus]
    rw [if_neg (by decide)]
  have h5 : remixBonus "abcqqqqqqqqqqqqqqqqq" c3Entry = 0 := by
    simp only [remixBonus]
    rw [if_neg (by decide)]
  unfold entryScore
  rw [if_neg (by decide)]
  unfold totalScore
  rw [h1, h2, h3, h4, h5]
  norm_num

lemma c3Entry_best : fuzzyBest "abcqqqqqqqqqqqqqqqqq" "xy" [c3Entry] = (some c3Entry, 9 / 20) := by
  show fuzzyFold "abcqqqqqqqqqqqqqqqqq" "xy" [c3Entry] (none, 0) = (some c3Entry, 9 / 20)
  rw [fuzzyFold, if_neg (by decide)]
  simp only [c3Entry_score]
  rw [if_pos (by norm_num)]
  rw [fuzzyFold]

lemma c3Reject_score : entryScore "zz" "" c3Reject = 0 := by
  have h1 : titleScore "zz" c3Reject = 0 := by
    unfold titleScore similarity_score
    rw [show tTitleNorm c3Reject = "qq" from by decide]
    rw [ratioQ_eval _ _ 0 4 (by decide) (by decide) (by decide)]
    norm_num
  have h2 : artistBonus "" c3Reject = 0 := by
    simp [artistBonus]
  have h3 : containsBonus "zz" c3Reject = 0 := by
    unfold containsBonus
    rw [if_neg (by decide)]
  have h4 : wordBonus "zz" c3Reject = 0 := by
    simp only [wordBonus]
    rw [if_neg (by decide)]
  have h5 : remixBonus "zz" c3Reject = 0 := by
    simp only [remixBonus]
    rw [if_neg (by decide)]
  unfold entryScore
  rw [if_neg (by decide)]
  unfold totalScore
  rw [h1, h2, h3, h4, h5]
  norm_num

lemma c3Reject_best : fuzzyBest "zz" "" [c3Reject] = (none, 0) := by
  show fuzzyFold "zz" "" [c3Reject] (none, 0) = (none, 0)
  rw [fuzzyFold, if_neg (by decide)]
  simp only [c3Reject_score]
  rw [if_neg (by norm_num)]
  rw [fuzzyFold]

theorem C3_witness :
    (∃ pre t post, [c3Entry] = pre ++ t :: post ∧ t.title.getD "" ≠ "" ∧
      fuzzyMatch "abcqqqqqqqqqqqqqqqqq" "xy" [c3Entry] = some t ∧
      entryScore "abcqqqqqqqqqqqqqqqqq" "xy" t =
        (fuzzyBest "abcqqqqqqqqqqqqqqqqq" "xy" [c3Entry]).2 ∧
      (∀ u ∈ pre, u.title.getD "" ≠ "" →
        entryScore "abcqqqqqqqqqqqqqqqqq" "xy" u < entryScore "abcqqqqqqqqqqqqqqqqq" "xy" t) ∧
      (∀ u ∈ [c3Entry], u.title.getD "" ≠ "" →
        entryScore "abcqqqqqqqqqqqqqqqqq" "xy" u ≤ entryScore "abcqqqqqqqqqqqqqqqqq" "xy" t)) ∧
    fuzzyMatch "zz" "" [c3Reject] = none :=
  ⟨(C3_threshold "abcqqqqqqqqqqqqqqqqq" "xy" [c3Entry]).2.1
      (by rw [c3Entry_best]),
    (C3_threshold "zz" "" [c3Reject]).1 (by rw [c3Reject_best]; norm_num)⟩

/-! ## Claims C4/C5 — orchestration control flow -/

/-- The fingerprint-id lookup produced a catalog entry (a 200 response
with a non-empty list, attempted only for a non-empty `acr_id`). -/
def acrLookupHit (acr_id : String) (menv : MusicEnv) : Prop :=
  acr_id ≠ "" ∧ ∃ st rest, menv.acrLookup = CFetch.ok (st :: rest)

/-- Exhaustive description of the fuzzy-related outputs of
`musicSearch`: either the fuzzy loop did not run and scanned nothing, or
it ran exactly once, only because the fingerprint-id lookup returned no
entry, over exactly the list the catalog fetch returned (requested with
`limit=500`). -/
lemma musicSearch_cases (acr_id ct ca : String) (menv : MusicEnv) :
    ((musicSearch acr_id ct ca menv).2.1 = 0 ∧ (musicSearch acr_id ct ca menv).2.2.1 = 0) ∨
    ((musicSearch acr_id ct ca menv).2.1 = 1 ∧
      ¬ acrLookupHit acr_id menv ∧
      ∃ l, menv.catalogFetch = CFetch.ok l ∧
        (musicSearch acr_id ct ca menv).1 = fuzzyMatch ct ca l ∧
        (musicSearch acr_id ct ca menv).2.2.1 = l.length ∧
        (musicSearch acr_id ct ca menv).2.2.2 = some 500) := by
  unfold musicSearch
  by_cases ha : acr_id ≠ ""
  · cases hl : menv.acrLookup with
    | raiseExc => left; simp [ha, hl]
    | httpErr =>
      cases hc : menv.catalogFetch with
      | raiseExc => left; simp [ha, hl, hc]
      | httpErr => left; simp [ha, hl, hc]
      | ok l =>
        right
        refine ⟨by simp [ha, hl, hc], ?_, l, rfl, by simp [ha, hl, hc],
          by simp [ha, hl, hc], by simp [ha, hl, hc]⟩
        rintro ⟨-, st, rest, hok⟩
        rw [hl] at hok
        exact CFetch.noConfusion hok
    | ok l0 =>
      cases l0 with
      | nil =>
        cases hc : menv.catalogFetch with
        | raiseExc => left; simp [ha, hl, hc]
        | httpErr => left; simp [ha, hl, hc]
        | ok l =>
          right
          refine ⟨by simp [ha, hl, hc], ?_, l, rfl, by simp [ha, hl, hc],
            by simp [ha, hl, hc], by simp [ha, hl, hc]⟩
          rintro ⟨-, st, rest, hok⟩
          rw [hl] at hok
          exact (List.cons_ne_nil st rest (CFetch.ok.inj hok).symm)
      | cons st rest => left; simp [ha, hl]
  · cases hc : menv.catalogFetch with
    | raiseExc => left; simp [ha, hc]
    | httpErr => left; simp [ha, hc]
    | ok l =>
      right
      refine ⟨by simp [ha, hc], ?_, l, rfl, by simp [ha, hc], by simp [ha, hc], by simp [ha, hc]⟩
      rintro ⟨hne, -⟩
      exact ha hne

/-- Musical-branch effect components are exactly the `musicSearch`
outputs at the branch's arguments. -/
lemma buildMusicResult_effects (track : AcrTrack) (pd : Nat) (menv : MusicEnv) :
    (buildMusicResult track pd menv).2 =
      ((musicSearch (track.acrid.getD "") (normalize_title (track.title.getD "Unknown"))
          (normalize_title (musicArtist track)) menv).2.1,
        (musicSearch (track.acrid.getD "") (normalize_title (track.title.getD "Unknown"))
          (normalize_title (musicArtist track)) menv).2.2.1,
        (musicSearch (track.acrid.getD "") (normalize_title (track.title.getD "Unknown"))
          (normalize_title (musicArtist track)) menv).2.2.2) := rfl

lemma model_creds_false (fetched : Except Unit AcrResponse) (cenv : CustomEnv)
    (menv : MusicEnv) (auth : Option (Option String)) (insertOk : Bool) :
    recognize_audio_model false fetched cenv menv auth insertOk = (.httpError 503, {}) := rfl

lemma model_transport (cenv : CustomEnv) (menv : MusicEnv)
    (auth : Option (Option String)) (insertOk : Bool) :
    recognize_audio_model true (.error ()) cenv menv auth insertOk =
      (.httpError 500, { acrCalls := 1 }) := rfl

lemma model_status_ne (resp : AcrResponse) (cenv : CustomEnv) (menv : MusicEnv)
    (auth : Option (Option String)) (insertOk : Bool) (hst : resp.statusCode ≠ 0) :
    recognize_audio_model true (.ok resp) cenv menv auth insertOk =
      (.ok (notRecognizedBody resp), { acrCalls := 1 }) := by
  simp [recognize_audio_model, hst]

lemma model_no_track (resp : AcrResponse) (cenv : CustomEnv) (menv : MusicEnv)
    (auth : Option (Option String)) (insertOk : Bool) (hst : resp.statusCode = 0)
    (hcf : resp.custom_files = []) (hm : resp.music = []) :
    recognize_audio_model true (.ok resp) cenv menv auth insertOk =
      (.ok (notRecognizedBody resp), { acrCalls := 1 }) := by
  simp [recognize_audio_model, hst, hcf, hm]

lemma model_custom (resp : AcrResponse) (track : AcrTrack) (rest : List AcrTrack)
    (cenv : CustomEnv) (menv : MusicEnv) (auth : Option (Option String)) (insertOk : Bool)
    (hst : resp.statusCode = 0) (hcf : resp.custom_files = track :: rest) :
    recognize_audio_model true (.ok resp) cenv menv auth insertOk =
      (.ok (buildCustomResult track cenv), { acrCalls := 1 }) := by
  simp [recognize_audio_model, hst, hcf]

lemma model_music (resp : AcrResponse) (track : AcrTrack) (rest : List AcrTrack)
    (cenv : CustomEnv) (menv : MusicEnv) (auth : Option (Option String)) (insertOk : Bool)
    (hst : resp.statusCode = 0) (hcf : resp.custom_files = [])
    (hm : resp.music = track :: rest) :
    recognize_audio_model true (.ok resp) cenv menv auth insertOk =
      (.ok (buildMusicResult track resp.played_duration menv).1,
        { acrCalls := 1
          fuzzyCalls := (buildMusicResult track resp.played_duration menv).2.1
          fuzzyScanned := (buildMusicResult track resp.played_duration menv).2.2.1
          catalogLimitParam := (buildMusicResult track resp.played_duration menv).2.2.2
          historyAttempts := authAttempts auth
          historySuccesses := if insertOk then authAttempts auth else 0 }) := by
  simp [recognize_audio_model, hst, hcf, hm]

/-- C4: a direct (custom-files) match bypasses the fuzzy matcher
entirely and is answered from the direct catalog fields; otherwise the
fuzzy loop runs at most once per call, and when it runs it is because
the fingerprint-id lookup returned no entry, scanning exactly the list
returned by the catalog fetch, which was requested with `limit=500` (so
at most 500 entries whenever the platform honors the limit). -/
theorem C4_direct_bypass (creds : Bool) (fetched : Except Unit AcrResponse)
    (cenv : CustomEnv) (menv : MusicEnv) (auth : Option (Option String)) (insertOk : Bool) :
    (∀ resp track rest, creds = true → fetched = .ok resp → resp.statusCode = 0 →
      resp.custom_files = track :: rest →
      recognize_audio_model creds fetched cenv menv auth insertOk =
        (.ok (buildCustomResult track cenv), { acrCalls := 1 }) ∧
      (recognize_audio_model creds fetched cenv menv auth insertOk).2.fuzzyCalls = 0) ∧
    ((recognize_audio_model creds fetched cenv menv auth insertOk).2.fuzzyCalls ≤ 1) ∧
    ((recognize_audio_model creds fetched cenv menv auth insertOk).2.fuzzyCalls = 1 →
      ∃ resp track rest, fetched = .ok resp ∧ resp.statusCode = 0 ∧
        resp.custom_files = [] ∧ resp.music = track :: rest ∧
        ¬ acrLookupHit (track.acrid.getD "") menv ∧
        ∃ l, menv.catalogFetch = CFetch.ok l ∧
          (recognize_audio_model creds fetched cenv menv auth insertOk).2.fuzzyScanned =
            l.length ∧
          (recognize_audio_model creds fetched cenv menv auth insertOk).2.catalogLimitParam =
            some 500 ∧
          (l.length ≤ 500 →
            (recognize_audio_model creds fetched cenv menv auth insertOk).2.fuzzyScanned
              ≤ 500)) := by
  cases creds with
  | false =>
    refine ⟨?_, ?_, ?_⟩
    · intro resp track rest hcr
      exact absurd hcr (by decide)
    · rw [model_creds_false]
      exact Nat.zero_le 1
    · rw [model_creds_false]
      intro h1
      exact Nat.noConfusion h1
  | true =>
    cases fetched with
    | error u =>
      cases u
      refine ⟨?_, ?_, ?_⟩
      · intro resp track rest _ hok
        exact Except.noConfusion hok
      · rw [model_transport]
        exact Nat.zero_le 1
      · rw [model_transport]
        intro h1
        exact Nat.noConfusion h1
    | ok resp =>
      by_cases hst : resp.statusCode = 0
      · cases hcf : resp.custom_files with
        | cons track rest =>
          have hmod := model_custom resp track rest cenv menv auth insertOk hst hcf
          refine ⟨?_, ?_, ?_⟩
          · intro resp' track' rest' _ hok hst' hcf'
            obtain rfl : resp = resp' := Except.ok.inj hok
            rw [hcf] at hcf'
            obtain ⟨rfl, rfl⟩ : track = track' ∧ rest = rest' :=
              ⟨(List.cons.inj hcf').1, (List.cons.inj hcf').2⟩
            exact ⟨hmod, by rw [hmod]⟩
          · rw [hmod]
            exact Nat.zero_le 1
          · rw [hmod]
            intro h1
            exact Nat.noConfusion h1
        | nil =>
          cases hm : resp.music with
          | nil =>
            have hmod := model_no_track resp cenv menv auth insertOk hst hcf hm
            refine ⟨?_, ?_, ?_⟩
            · intro resp' track' rest' _ hok hst' hcf'
              obtain rfl : resp = resp' := Except.ok.inj hok
              rw [hcf] at hcf'
              exact List.noConfusion hcf'
            · rw [hmod]
              exact Nat.zero_le 1
            · rw [hmod]
              intro h1
              exact Nat.noConfusion h1
          | cons track rest =>
            have hmod := model_music resp track rest cenv menv auth insertOk hst hcf hm
            have hconj1 : ∀ resp' (track' : AcrTrack) (rest' : List AcrTrack),
                true = true → (Except.ok resp : Except Unit AcrResponse) = .ok resp' →
                resp'.statusCode = 0 → resp'.custom_files = track' :: rest' →
                recognize_audio_model true (.ok resp) cenv menv auth insertOk =
                  (.ok (buildCustomResult track' cenv), { acrCalls := 1 }) ∧
                (recognize_audio_model true (.ok resp) cenv menv auth
                  insertOk).2.fuzzyCalls = 0 := by
              intro resp' track' rest' _ hok hst' hcf'
              obtain rfl : resp = resp' := Except.ok.inj hok
              rw [hcf] at hcf'
              exact List.noConfusion hcf'
            rcases musicSearch_cases (track.acrid.getD "")
              (normalize_title (track.title.getD "Unknown"))
              (normalize_title (musicArtist track)) menv with ⟨hz, hz2⟩ |
              ⟨ho, hmiss, l, hcat, -, hscan, hlim⟩
            · refine ⟨hconj1, ?_, ?_⟩
              · rw [hmod]
                have he : (buildMusicResult track resp.played_duration menv).2.1 = 0 := by
                  rw [buildMusicResult_effects]
                  exact hz
                show (buildMusicResult track resp.played_duration menv).2.1 ≤ 1
                rw [he]
                exact Nat.zero_le 1
              · rw [hmod]
                intro h1
                have h1e : (buildMusicResult track resp.played_duration menv).2.1 = 1 := h1
                rw [buildMusicResult_effects, hz] at h1e
                exact Nat.noConfusion h1e
            · refine ⟨hconj1, ?_, ?_⟩
              · rw [hmod]
                have he : (buildMusicResult track resp.played_duration menv).2.1 = 1 := by
                  rw [buildMusicResult_effects]
                  exact ho
                show (buildMusicResult track resp.played_duration menv).2.1 ≤ 1
                rw [he]
              · rw [hmod]
                intro h1
                refine ⟨resp, track, rest, rfl, hst, hcf, hm, hmiss, l, hcat, ?_, ?_, ?_⟩
                · show (buildMusicResult track resp.played_duration menv).2.2.1 = l.length
                  rw [buildMusicResult_effects]
                  exact hscan
                · show (buildMusicResult track resp.played_duration menv).2.2.2 = some 500
                  rw [buildMusicResult_effects]
                  exact hlim
                · intro hle
                  show (buildMusicResult track resp.played_duration menv).2.2.1 ≤ 500
                  rw [buildMusicResult_effects, hscan]
                  exact hle
      · have hmod := model_status_ne resp cenv menv auth insertOk hst
        refine ⟨?_, ?_, ?_⟩
        · intro resp' track' rest' _ hok hst'
          obtain rfl : resp = resp' := Except.ok.inj hok
          exact absurd hst' hst
        · rw [hmod]
          exact Nat.zero_le 1
        · rw [hmod]
          intro h1
          exact Nat.noConfusion h1

def c4CustomTrack : AcrTrack := { acrid := some "acr1", title := some "Song A" }

def c4CustomResp : AcrResponse := { statusCode := 0, custom_files := [c4CustomTrack] }

def c4MusicTrack : AcrTrack := { title := some "Song B" }

def c4MusicResp : AcrResponse := { statusCode := 0, music := [c4MusicTrack] }

def c4Menv : MusicEnv := { catalogFetch := CFetch.ok [] }

theorem C4_witness :
    (recognize_audio_model true (.ok c4CustomResp) {} {} none true =
        (.ok (buildCustomResult c4CustomTrack {}), { acrCalls := 1 }) ∧
      (recognize_audio_model true (.ok c4CustomResp) {} {} none true).2.fuzzyCalls = 0) ∧
    (∃ resp track rest, (.ok c4MusicResp : Except Unit AcrResponse) = .ok resp ∧
      resp.statusCode = 0 ∧ resp.custom_files = [] ∧ resp.music = track :: rest ∧
      ¬ acrLookupHit (track.acrid.getD "") c4Menv ∧
      ∃ l, c4Menv.catalogFetch = CFetch.ok l ∧
        (recognize_audio_model true (.ok c4MusicResp) {} c4Menv none true).2.fuzzyScanned =
          l.length ∧
        (recognize_audio_model true (.ok c4MusicResp) {} c4Menv none
            true).2.catalogLimitParam = some 500 ∧
        (l.length ≤ 500 →
          (recognize_audio_model true (.ok c4MusicResp) {} c4Menv none
            true).2.fuzzyScanned ≤ 500)) :=
  ⟨(C4_direct_bypass true (.ok c4CustomResp) {} {} none true).1 c4CustomResp c4CustomTrack []
      rfl rfl rfl rfl,
    (C4_direct_bypass true (.ok c4MusicResp) {} c4Menv none true).2.2 (by decide)⟩

/-- C5: a structured non-zero `status.code` — and likewise a zero status
with no track in any bucket — yields HTTP 200 with
`{success: false, message: "Could not identify the track"}`, while a
transport exception during the fingerprint call becomes HTTP 500. -/
theorem C5_failure_classes (cenv : CustomEnv) (menv : MusicEnv)
    (auth : Option (Option String)) (insertOk : Bool) :
    (∀ resp : AcrResponse, resp.statusCode ≠ 0 →
      recognize_audio_model true (.ok resp) cenv menv auth insertOk =
        (.ok (notRecognizedBody resp), { acrCalls := 1 }) ∧
      (notRecognizedBody resp).success = false ∧
      (notRecognizedBody resp).message = some "Could not identify the track") ∧
    (∀ resp : AcrResponse, resp.statusCode = 0 → resp.custom_files = [] → resp.music = [] →
      recognize_audio_model true (.ok resp) cenv menv auth insertOk =
        (.ok (notRecognizedBody resp), { acrCalls := 1 }) ∧
      (notRecognizedBody resp).success = false ∧
      (notRecognizedBody resp).message = some "Could not identify the track") ∧
    recognize_audio_model true (.error ()) cenv menv auth insertOk =
      (.httpError 500, { acrCalls := 1 }) := by
  refine ⟨?_, ?_, model_transport cenv menv auth insertOk⟩
  · intro resp hst
    exact ⟨model_status_ne resp cenv menv auth insertOk hst, rfl, rfl⟩
  · intro resp hst hcf hm
    exact ⟨model_no_track resp cenv menv auth insertOk hst hcf hm, rfl, rfl⟩

def c5BadResp : AcrResponse := { statusCode := 3001, statusMsg := some "Invalid access key" }

def c5EmptyResp : AcrResponse := { statusCode := 0 }

theorem C5_witness :
    (recognize_audio_model true (.ok c5BadResp) {} {} none true =
        (.ok (notRecognizedBody c5BadResp), { acrCalls := 1 }) ∧
      (notRecognizedBody c5BadResp).success = false ∧
      (notRecognizedBody c5BadResp).message = some "Could not identify the track") ∧
    (recognize_audio_model true (.ok c5EmptyResp) {} {} none true =
        (.ok (notRecognizedBody c5EmptyResp), { acrCalls := 1 }) ∧
      (notRecognizedBody c5EmptyResp).success = false ∧
      (notRecognizedBody c5EmptyResp).message = some "Could not identify the track") :=
  ⟨((C5_failure_classes {} {} none true).1 c5BadResp (by decide)),
    ((C5_failure_classes {} {} none true).2.1 c5EmptyResp rfl rfl rfl)⟩

/-! ## Claim C7 — history persistence -/

/-- The response body never depends on whether the history insert
succeeded (lines 660-669: the insert failure is swallowed and the same
`recognition_result` is returned). -/
lemma model_insert_indep (creds : Bool) (fetched : Except Unit AcrResponse)
    (cenv : CustomEnv) (menv : MusicEnv) (auth : Option (Option String)) :
    (recognize_audio_model creds fetched cenv menv auth true).1 =
      (recognize_audio_model creds fetched cenv menv auth false).1 := by
  cases creds with
  | false => rfl
  | true =>
    cases fetched with
    | error u => cases u; rfl
    | ok resp =>
      by_cases hst : resp.statusCode = 0
      · cases hcf : resp.custom_files with
        | cons t r =>
          rw [model_custom resp t r cenv menv auth true hst hcf,
            model_custom resp t r cenv menv auth false hst hcf]
        | nil =>
          cases hm : resp.music with
          | nil =>
            rw [model_no_track resp cenv menv auth true hst hcf hm,
              model_no_track resp cenv menv auth false hst hcf hm]
          | cons t r =>
            rw [model_music resp t r cenv menv auth true hst hcf hm,
              model_music resp t r cenv menv auth false hst hcf hm]
      · rw [model_status_ne resp cenv menv auth true hst,
          model_status_ne resp cenv menv auth false hst]

def c7Track : AcrTrack :=
  { acrid := some "acr7", title := some "Custom Song", spynners_track_id := some "sp7" }

def c7Resp : AcrResponse := { statusCode := 0, custom_files := [c7Track] }

/-- C7 counterexample: a recognition call carrying a decodable bearer
token whose successful result comes from the direct/custom path performs
zero history-insert attempts — the custom branch returns at line 450,
before the history write at lines 658-669. -/
theorem C7_counterexample :
    recognize_audio_model true (.ok c7Resp) {} {} (some (some "user1")) true =
      (.ok (buildCustomResult c7Track {}), { acrCalls := 1 }) ∧
    (buildCustomResult c7Track ({} : CustomEnv)).success = true ∧
    (recognize_audio_model true (.ok c7Resp) {} {}
      (some (some "user1")) true).2.historyAttempts = 0 :=
  ⟨rfl, rfl, rfl⟩

/-- C7 amended: only the non-direct (music) path appends a history
record — exactly one insert attempt per successful music-path call with
a decodable bearer token; the direct/custom path performs none; and the
response body is identical whether the insert succeeds or fails. -/
theorem C7_amended_history (resp : AcrResponse) (track : AcrTrack) (rest : List AcrTrack)
    (cenv : CustomEnv) (menv : MusicEnv) (uid : String) (insertOk : Bool) :
    (resp.statusCode = 0 → resp.custom_files = [] → resp.music = track :: rest →
      (recognize_audio_model true (.ok resp) cenv menv
        (some (some uid)) insertOk).2.historyAttempts = 1 ∧
      ∃ body, (recognize_audio_model true (.ok resp) cenv menv
          (some (some uid)) insertOk).1 = .ok body ∧ body.success = true) ∧
    (resp.statusCode = 0 → resp.custom_files = track :: rest →
      (recognize_audio_model true (.ok resp) cenv menv
        (some (some uid)) insertOk).2.historyAttempts = 0) ∧
    (∀ creds fetched auth,
      (recognize_audio_model creds fetched cenv menv auth true).1 =
        (recognize_audio_model creds fetched cenv menv auth false).1) := by
  refine ⟨?_, ?_, fun creds fetched auth => model_insert_indep creds fetched cenv menv auth⟩
  · intro hst hcf hm
    have hmod := model_music resp track rest cenv menv (some (some uid)) insertOk hst hcf hm
    constructor
    · rw [hmod]
      rfl
    · refine ⟨(buildMusicResult track resp.played_duration menv).1, ?_, rfl⟩
      rw [hmod]
  · intro hst hcf
    have hmod := model_custom resp track rest cenv menv (some (some uid)) insertOk hst hcf
    rw [hmod]

def c7MusicTrack : AcrTrack := { title := some "Radio Song" }

def c7MusicResp : AcrResponse := { statusCode := 0, music := [c7MusicTrack] }

theorem C7_amended_witness :
    ((recognize_audio_model true (.ok c7MusicResp) {} c4Menv
        (some (some "user1")) true).2.historyAttempts = 1 ∧
      ∃ body, (recognize_audio_model true (.ok c7MusicResp) {} c4Menv
          (some (some "user1")) true).1 = .ok body ∧ body.success = true) :=
  (C7_amended_history c7MusicResp c7MusicTrack [] {} c4Menv "user1" true).1 rfl rfl rfl

/-! ## Claim C6 — credentials gating -/

def c6Rec : OfflineRec := { timestampStr := "2025-01-01T00:00:00Z" }

def c6Env : ItemEnv :=
  .resp { statusCode := 3001, statusMsg := some "Invalid access key" } CFetch.httpErr

/-- C6 counterexample: with unconfigured credentials the offline-batch
endpoint is not rejected with 503 — it processes the batch normally (the
unauthenticated fingerprint call simply fails per item). -/
theorem C6_counterexample :
    process_offline_session_model false "sess1" [(c6Rec, c6Env)] true =
      .ok { success := true
            sessionId := "sess1"
            totalRecordings := 1
            identifiedTracks := 0
            results := [{ success := false, message := some "Invalid access key",
                          timestampStr := "2025-01-01T00:00:00Z" }] } ∧
    process_offline_session_model false "sess1" [(c6Rec, c6Env)] true ≠
      .httpError 503 := by
  constructor
  · decide
  · decide

/-- C6 amended: with unconfigured credentials the online recognition
endpoint is rejected with 503 before any fingerprint-service call, but
the offline-batch endpoint performs no credentials check at all — its
behaviour is identical with and without configured credentials. -/
theorem C6_amended :
    (∀ (fetched : Except Unit AcrResponse) (cenv : CustomEnv) (menv : MusicEnv)
        (auth : Option (Option String)) (insertOk : Bool),
      recognize_audio_model false fetched cenv menv auth insertOk = (.httpError 503, {}) ∧
      (recognize_audio_model false fetched cenv menv auth insertOk).2.acrCalls = 0) ∧
    (∀ (creds : Bool) (sid : String) (recs : List (OfflineRec × ItemEnv)) (dbOk : Bool),
      process_offline_session_model creds sid recs dbOk =
        process_offline_session_model true sid recs dbOk) := by
  constructor
  · intro fetched cenv menv auth insertOk
    exact ⟨rfl, rfl⟩
  · intro creds sid recs dbOk
    rfl

/-! ## Claim C8 — transcode temp-file cleanup -/

/-- C8 counterexample: when the identify-time conversion tool exits
non-zero but created an output file, that output file remains on disk
(the failure branch, lines 287-295, unlinks only the input file). -/
theorem C8_counterexample :
    (identifyConversion (.completed 1 true)).1.outputExists = true ∧
    (identifyConversion (.completed 1 true)).1 ≠ ⟨false, false⟩ := by
  constructor
  · rfl
  · decide

/-- C8 amended: after the identify-time conversion the input temp file
never remains; all temp files are gone after success or an exception,
but after a tool failure that produced an output file that output file
remains; the explicit convert endpoint removes both files on every exit
path (its cleanup runs in a `finally` block). -/
theorem C8_amended (run : ToolRun) :
    (identifyConversion run).1.inputExists = false ∧
    ((identifyConversion run).1 = ⟨false, false⟩ ∨
      ∃ rc, run = .completed rc true ∧ rc ≠ 0 ∧
        (identifyConversion run).1.outputExists = true) ∧
    (convertEndpoint run).2 = ⟨false, false⟩ := by
  cases run with
  | completed rc oe =>
    by_cases h : rc = 0 ∧ oe = true
    · refine ⟨?_, Or.inl ?_, ?_⟩
      · simp [identifyConversion, h]
      · simp [identifyConversion, h]
      · simp [convertEndpoint, h]
    · refine ⟨?_, ?_, ?_⟩
      · simp [identifyConversion, h]
      · cases oe with
        | false =>
          left
          simp [identifyConversion, h]
        | true =>
          right
          have hrc : ¬ rc = 0 := fun hrc => h ⟨hrc, rfl⟩
          refine ⟨rc, rfl, hrc, ?_⟩
          simp [identifyConversion, h, hrc]
      · simp [convertEndpoint, h]
  | raised oe => exact ⟨rfl, Or.inl rfl, rfl⟩

theorem C8_amended_witness :
    (identifyConversion (.completed 0 true)).1.inputExists = false ∧
    ((identifyConversion (.completed 0 true)).1 = ⟨false, false⟩ ∨
      ∃ rc, (ToolRun.completed 0 true) = .completed rc true ∧ rc ≠ 0 ∧
        (identifyConversion (.completed 0 true)).1.outputExists = true) ∧
    (convertEndpoint (.completed 0 true)).2 = ⟨false, false⟩ :=
  C8_amended (.completed 0 true)

/-! ## Claims C9/C10 — offline batch isolation and shape -/

/-- C9: an exception while processing recording `i` is recorded as a
failed-item entry `{success: false, message, timestamp}`; every other
recording's entry is exactly what its own processing produces; and the
batch call returns a normal aggregated response. -/
theorem C9_batch_isolation (creds : Bool) (sid : String)
    (recs : List (OfflineRec × ItemEnv)) (i : Nat) (rec : OfflineRec) (msg : String)
    (hi : recs[i]? = some (rec, .raiseExc msg)) :
    ∃ agg, process_offline_session_model creds sid recs true = .ok agg ∧
      agg.results[i]? = some ({ success := false,
                                message := some msg,
                                timestampStr := rec.timestampStr }) ∧
      (∀ j p, j ≠ i → recs[j]? = some p →
        agg.results[j]? = some (processRecording p.1 p.2).1) ∧
      agg.results.length = recs.length := by
  refine ⟨{ success := true, sessionId := sid, totalRecordings := recs.length,
            identifiedTracks := offlineIdentifiedCount recs,
            results := offlineItems recs }, rfl, ?_, ?_, ?_⟩
  · show (offlineItems recs)[i]? = _
    unfold offlineItems
    rw [List.getElem?_map, hi]
    rfl
  · intro j p hne hj
    show (offlineItems recs)[j]? = _
    unfold offlineItems
    rw [List.getElem?_map, hj]
    rfl
  · exact List.length_map recs _

def c9Rec1 : OfflineRec := { timestampStr := "t1" }
def c9Rec2 : OfflineRec := { timestampStr := "t2" }
def c9Rec3 : OfflineRec := { timestampStr := "t3" }

def c9Track : AcrTrack := { title := some "Found Song", artists := [some "Artist"] }

def c9GoodEnv : ItemEnv := .resp { statusCode := 0, music := [c9Track] } CFetch.httpErr

def c9Batch : List (OfflineRec × ItemEnv) :=
  [(c9Rec1, c9GoodEnv), (c9Rec2, .raiseExc "Connection timed out"), (c9Rec3, c9GoodEnv)]

theorem C9_witness :
    ∃ agg, process_offline_session_model true "s9" c9Batch true = .ok agg ∧
      agg.results[1]? = some ({ success := false,
                                message := some "Connection timed out",
                                timestampStr := "t2" }) ∧
      (∀ j p, j ≠ 1 → c9Batch[j]? = some p →
        agg.results[j]? = some (processRecording p.1 p.2).1) ∧
      agg.results.length = c9Batch.length :=
  C9_batch_isolation true "s9" c9Batch 1 c9Rec2 "Connection timed out" rfl

/-- C10: the offline response carries exactly one `results` entry per
input recording, in input order (entry `i` is the processing of
recording `i`), and `identifiedTracks` never exceeds
`totalRecordings`. -/
theorem C10_offline_shape (creds : Bool) (sid : String)
    (recs : List (OfflineRec × ItemEnv)) :
    ∃ agg, process_offline_session_model creds sid recs true = .ok agg ∧
      agg.results.length = recs.length ∧
      agg.totalRecordings = recs.length ∧
      (∀ (i : Nat) (p : OfflineRec × ItemEnv), recs[i]? = some p →
        agg.results[i]? = some (processRecording p.1 p.2).1) ∧
      agg.identifiedTracks ≤ agg.totalRecordings := by
  refine ⟨{ success := true, sessionId := sid, totalRecordings := recs.length,
            identifiedTracks := offlineIdentifiedCount recs,
            results := offlineItems recs }, rfl, List.length_map recs _, rfl, ?_, ?_⟩
  · intro i p hi
    show (offlineItems recs)[i]? = _
    unfold offlineItems
    rw [List.getElem?_map, hi]
    rfl
  · show offlineIdentifiedCount recs ≤ recs.length
    unfold offlineIdentifiedCount
    exact List.length_filter_le _ recs

theorem C10_witness :
    ∃ agg, process_offline_session_model true "s10" c9Batch true = .ok agg ∧
      agg.results.length = c9Batch.length ∧
      agg.totalRecordings = c9Batch.length ∧
      (∀ (i : Nat) (p : OfflineRec × ItemEnv), c9Batch[i]? = some p →
        agg.results[i]? = some (processRecording p.1 p.2).1) ∧
      agg.identifiedTracks ≤ agg.totalRecordings :=
  C10_offline_shape true "s10" c9Batch
